import Mathlib

/-!
Verification development for the relay-api time-series metric upsert and
aggregation engine. The definitions below are a shallow embedding of the
Python source under `app/`: list-backed stores stand in for the SQL tables,
`Except` models raised storage errors, and integers model instants
(microseconds since the Unix epoch) and lifecycle timestamps.
-/

namespace Relay

/-- Replace the first element satisfying the predicate by the given value.
Models an in-place SQLAlchemy object mutation followed by a commit: the row
keeps its position in the table, only its contents change. -/
def replaceFirst {α : Type} (p : α → Bool) (x : α) : List α → List α
  | [] => []
  | a :: as => if p a then x :: as else a :: replaceFirst p x as

/-! ## Activity-miles data model

Embeds `app/models/metric/activity/miles.py` (table `activity_miles` with a
unique constraint on `(user_id, date_hour, source)`) and the bulk-create
payload rows used by `app/services/metrics_service.py` (fields `date_hour`,
`miles`, `activity_type`, `source`, the first two value fields optional).
`date_hour` and the lifecycle timestamps are instants modelled as `Int`;
`miles` is the `Numeric` column modelled as `ℚ`; `source` is the
`DataSource` enum modelled as `String`. -/

structure MilesRecord where
  id : String
  user_id : String
  date_hour : Int
  miles : Option ℚ
  activity_type : Option String
  source : String
  created_at : Option Int
  updated_at : Option Int
deriving DecidableEq, Repr, Inhabited

structure MilesCandidate where
  date_hour : Int
  miles : Option ℚ
  activity_type : Option String
  source : String
deriving DecidableEq, Repr, Inhabited

/-- The table of `activity_miles` rows, in insertion order. -/
abbrev MilesStore := List MilesRecord

/-- The natural key of a stored row: `(user_id, date_hour, source)`. -/
def milesKey (r : MilesRecord) : String × Int × String :=
  (r.user_id, r.date_hour, r.source)

/-- The natural key a candidate row will be stored under for a given user. -/
def candKey (uid : String) (c : MilesCandidate) : String × Int × String :=
  (uid, c.date_hour, c.source)

/-- The filter of `MetricsRepository.get_miles_data_by_date_hour_source`
(`metrics_repositories.py` line 285): user, exact `date_hour`, and `source`. -/
def milesHit (uid : String) (dh : Int) (src : String) (r : MilesRecord) : Bool :=
  r.user_id == uid && r.date_hour == dh && r.source == src

/-- `MetricsRepository.get_miles_data_by_date_hour_source`: `.first()` over the
filtered query, i.e. the first row matching the natural key. -/
def get_miles_data_by_date_hour_source (db : MilesStore) (uid : String)
    (dh : Int) (src : String) : Option MilesRecord :=
  db.find? (milesHit uid dh src)

/-- The update branch of the service bulk upsert
(`metrics_service.py` lines 50-59): overwrite `miles` and `activity_type`
only when the candidate value is not `None`, then refresh `updated_at`. -/
def milesApplyUpdate (c : MilesCandidate) (now : Int) (r : MilesRecord) :
    MilesRecord :=
  let r1 := match c.miles with
    | some v => { r with miles := some v }
    | none => r
  let r2 := match c.activity_type with
    | some v => { r1 with activity_type := some v }
    | none => r1
  { r2 with updated_at := some now }

/-- The create branch of the service bulk upsert
(`metrics_service.py` lines 61-69): a fresh row carrying the candidate's
values verbatim (including `None`s). `created_at` is the server default at
insert time; `updated_at` is unset until the first update. -/
def milesNewRecord (rid uid : String) (c : MilesCandidate) (now : Int) :
    MilesRecord :=
  { id := rid, user_id := uid, date_hour := c.date_hour, miles := c.miles,
    activity_type := c.activity_type, source := c.source,
    created_at := some now, updated_at := none }

/-- Loop of `MetricsService.create_or_update_multiple_miles_records`
(`metrics_service.py` lines 47-72). Every repository call commits on its own
(`metrics_repositories.py` lines 287-296), so each processed candidate is
durable immediately; `err i = true` models a storage error raised while
processing candidate `i`, which propagates and leaves the rows committed so
far in place (`Except.error` carries the store as it stands). The `ps`
accumulator captures each appended row by value; the source's
`processed_records` instead holds live session objects, so later same-key
merges are visible through earlier entries as well — `sessionView` recovers
that observed state from the final store. -/
def svcBulkGo (err : Nat → Bool) (freshId : Nat → String) (now : Int)
    (uid : String) :
    Nat → MilesStore → List MilesRecord → Nat → Nat → List MilesCandidate →
    Except MilesStore (MilesStore × List MilesRecord × Nat × Nat)
  | _, db, ps, c, u, [] => .ok (db, ps, c, u)
  | i, db, ps, c, u, cand :: rest =>
    if err i then .error db
    else
      match get_miles_data_by_date_hour_source db uid cand.date_hour cand.source with
      | some r =>
        let r' := milesApplyUpdate cand now r
        svcBulkGo err freshId now uid (i + 1)
          (replaceFirst (milesHit uid cand.date_hour cand.source) r' db)
          (ps ++ [r']) c (u + 1) rest
      | none =>
        let nr := milesNewRecord (freshId i) uid cand now
        svcBulkGo err freshId now uid (i + 1) (db ++ [nr]) (ps ++ [nr])
          (c + 1) u rest

/-- `MetricsService.create_or_update_multiple_miles_records`
(`metrics_service.py` lines 38-74): returns
`(processed_records, created_count, updated_count)` together with the final
store, or the store as committed so far when a storage error aborts the
loop. -/
def create_or_update_multiple_miles_records (err : Nat → Bool)
    (freshId : Nat → String) (now : Int) (uid : String)
    (records : List MilesCandidate) (db : MilesStore) :
    Except MilesStore (MilesStore × List MilesRecord × Nat × Nat) :=
  svcBulkGo err freshId now uid 0 db [] 0 0 records

/-- Error oracle for the normal path: no storage error occurs. -/
def noErr : Nat → Bool := fun _ => false

/-! ## Router-level bulk upsert

Embeds the `POST /miles/bulk` handler
(`app/api/v1/metric/activity/miles.py` lines 95-164). The handler runs on a
session created with `autoflush=False` (`app/db/session.py`), so rows added
with `db.add` stay pending and are invisible to the `one_or_none()` lookups
that follow within the same batch, while in-session mutations of rows the
lookups did return are visible through the identity map. All changes are
committed once at the end; the table's unique constraint on
`(user_id, date_hour, source)` rejects the commit when two pending inserts
share a key, and the `except` branch rolls everything back. -/

/-- One pass of the router loop: `sess` is the committed table as seen (and
mutated) through the session's identity map, `pend` the rows added with
`db.add` and not yet flushed. `err i` models an error raised while processing
candidate `i` (before commit, nothing is durable yet). As in `svcBulkGo`,
the `ps` accumulator captures rows by value at append time, where the source
appends live session objects (see `sessionView`). -/
def routerGo (err : Nat → Bool) (freshId : Nat → String) (now : Int)
    (uid : String) :
    Nat → MilesStore → MilesStore → List MilesRecord → Nat → Nat →
    List MilesCandidate →
    Except Unit (MilesStore × MilesStore × List MilesRecord × Nat × Nat)
  | _, sess, pend, ps, c, u, [] => .ok (sess, pend, ps, c, u)
  | i, sess, pend, ps, c, u, cand :: rest =>
    if err i then .error ()
    else
      match get_miles_data_by_date_hour_source sess uid cand.date_hour cand.source with
      | some r =>
        let r' := milesApplyUpdate cand now r
        routerGo err freshId now uid (i + 1)
          (replaceFirst (milesHit uid cand.date_hour cand.source) r' sess)
          pend (ps ++ [r']) c (u + 1) rest
      | none =>
        let nr := milesNewRecord (freshId i) uid cand now
        routerGo err freshId now uid (i + 1) sess (pend ++ [nr]) (ps ++ [nr])
          (c + 1) u rest

/-- `create_or_update_multiple_activity_miles_records`
(`miles.py` lines 95-164): run the loop, then `db.commit()` flushes the
pending inserts; the unique constraint fails when a pending insert collides
with another pending insert or an existing row, in which case (as for any
error mid-loop) `db.rollback()` restores the original store. -/
def create_or_update_multiple_activity_miles_records (err : Nat → Bool)
    (freshId : Nat → String) (now : Int) (uid : String)
    (records : List MilesCandidate) (db : MilesStore) :
    Except MilesStore (MilesStore × List MilesRecord × Nat × Nat) :=
  match routerGo err freshId now uid 0 db [] [] 0 0 records with
  | .error _ => .error db
  | .ok (sess, pend, ps, c, u) =>
    if (pend.map milesKey).Nodup ∧
        ∀ p ∈ pend, ∀ s ∈ sess, milesKey p ≠ milesKey s then
      .ok (sess ++ pend, ps, c, u)
    else
      .error db

/-! ## Lookup and delete by id

Embeds `MetricsRepository.get_miles_data_by_id` and
`MetricsRepository.delete_miles_record`
(`metrics_repositories.py` lines 281-282 and 298-304): both filter by record
id and owner, take `.first()`, and the delete removes the found row (by
primary key) or returns `None` leaving the table untouched. -/

def get_miles_data_by_id (db : MilesStore) (uid rid : String) :
    Option MilesRecord :=
  db.find? (fun r => r.id == rid && r.user_id == uid)

def delete_miles_record (db : MilesStore) (uid rid : String) :
    Option MilesRecord × MilesStore :=
  match db.find? (fun r => r.id == rid && r.user_id == uid) with
  | some r => (some r, db.filter (fun x => !(x.id == r.id)))
  | none => (none, db)

/-! ## Heart-rate ingest

Embeds the row type of `app/models/metric/body/heartrate.py` (all measurement
columns nullable, unique constraint on `(user_id, date, source)`) and the
per-data-point upsert of `ingest_heart_rate_data`
(`app/api/v1/metric/body/heartrate.py` lines 102-148). The data point's
`heart_rate` is optional (nullable column, optional in the pydantic create
schema); the update branch at lines 134-137 assigns it to the existing row
unconditionally — there is no `is not None` guard. The handler buffers
creates with `db.add` (pending, invisible to later lookups under
`autoflush=False`) and commits once at the end. -/

structure HRRecord where
  user_id : String
  date : Int
  heart_rate : Option Int
  min_hr : Option Int
  avg_hr : Option ℚ
  max_hr : Option Int
  resting_hr : Option Int
  heart_rate_variability : Option ℚ
  source : String
  created_at : Option Int
  updated_at : Option Int
deriving DecidableEq, Repr, Inhabited

/-- The lookup filter of the ingest upsert (`heartrate.py` lines 124-132):
user, exact datetime, and source. -/
def hrHit (uid : String) (dt : Int) (src : String) (r : HRRecord) : Bool :=
  r.user_id == uid && r.date == dt && r.source == src

/-- Processing of one parsed heart-rate data point
(`heartrate.py` lines 123-148): look the row up by `(user, date, source)` in
the session; if found, overwrite `heart_rate` with the data point's value
(whatever it is) and refresh `updated_at`; otherwise buffer a new row. -/
def ingest_heart_rate_point (uid : String) (dt : Int) (src : String)
    (hr : Option Int) (now : Int) (sess pend : List HRRecord) :
    List HRRecord × List HRRecord :=
  match sess.find? (hrHit uid dt src) with
  | some r =>
    let r' := { r with heart_rate := hr, updated_at := some now }
    (replaceFirst (hrHit uid dt src) r' sess, pend)
  | none =>
    let nr : HRRecord :=
      { user_id := uid, date := dt, heart_rate := hr,
        min_hr := none, avg_hr := none, max_hr := none, resting_hr := none,
        heart_rate_variability := none, source := src, created_at := none,
        updated_at := none }
    (sess, pend ++ [nr])

/-! ## Nutrition macros aggregation

Embeds the row type of `app/models/nutrition/macros.py` (all four macro
columns nullable `Numeric`) and the day-level aggregation of
`get_macro_aggregations` (`app/api/v1/nutrition/macros.py` lines 331-402):
group the user's records by the calendar date of their timestamp, sum each
macro over the group keeping only truthy values (`if record.calories` drops
both `None` and `0`), and report the sum only when it is strictly positive
(`total if total > 0 else None`). -/

structure CivilDate where
  year : Int
  month : Nat
  day : Nat
deriving DecidableEq, Repr, Inhabited

/-- Lexicographic order on dates, matching the sort by the zero-padded
`"%Y-%m-%d"` key string in the Python code. -/
def dateLe (a b : CivilDate) : Bool :=
  a.year < b.year || (a.year == b.year &&
    (a.month < b.month || (a.month == b.month && a.day ≤ b.day)))

structure NutritionMacrosRec where
  id : String
  user_id : String
  date : CivilDate
  time_us : Nat
  protein : Option ℚ
  carbs : Option ℚ
  fat : Option ℚ
  calories : Option ℚ
  meal_name : Option String
deriving DecidableEq, Repr, Inhabited

/-- Python truthiness of a nullable numeric: `None`, `0` and `0.0` are
falsy, everything else truthy. -/
def pyTruthy : Option ℚ → Bool
  | none => false
  | some v => !(v == 0)

/-- The `sum(<field> for record in day_records if record.<field>)` pattern:
sum the truthy values of the field over the group, starting from `0`. -/
def pySumField (get : NutritionMacrosRec → Option ℚ)
    (grp : List NutritionMacrosRec) : ℚ :=
  ((grp.filter (fun r => pyTruthy (get r))).filterMap get).foldl (· + ·) 0

/-- The `total if total > 0 else None` reporting of a group total
(`macros.py` lines 373-388). -/
def pyAggTotal (get : NutritionMacrosRec → Option ℚ)
    (grp : List NutritionMacrosRec) : Option ℚ :=
  let s := pySumField get grp
  if s > 0 then some s else none

/-- One emitted day bucket (the dict built at `macros.py` lines 382-392). -/
structure DailyAgg where
  date : CivilDate
  total_calories : Option ℚ
  total_protein : Option ℚ
  total_carbs : Option ℚ
  total_fat : Option ℚ
  meal_count : Nat
  meals : List NutritionMacrosRec
deriving DecidableEq, Repr

/-- Grouping by `record.datetime.date()` into an insertion-ordered dict
(`macros.py` lines 362-368). -/
def dailyGroups (records : List NutritionMacrosRec) :
    List (CivilDate × List NutritionMacrosRec) :=
  records.foldl (fun acc r =>
    if acc.any (fun p => p.1 == r.date) then
      acc.map (fun p => if p.1 == r.date then (p.1, p.2 ++ [r]) else p)
    else
      acc ++ [(r.date, [r])]) []

/-- `get_macro_aggregations` (`macros.py` lines 331-402), after the query:
takes the user's records already filtered and ordered ascending by timestamp,
groups them by day, computes the four guarded totals and the group size, and
sorts the buckets by date. -/
def get_macro_aggregations (records : List NutritionMacrosRec) :
    List DailyAgg :=
  let aggs := (dailyGroups records).map (fun g =>
    { date := g.1,
      total_calories := pyAggTotal (fun r => r.calories) g.2,
      total_protein := pyAggTotal (fun r => r.protein) g.2,
      total_carbs := pyAggTotal (fun r => r.carbs) g.2,
      total_fat := pyAggTotal (fun r => r.fat) g.2,
      meal_count := g.2.length,
      meals := g.2 })
  aggs.insertionSort (fun a b => dateLe a.date b.date)

/-! ## Day-boundary resolution

Embeds `app/core/datetime_utils.py`. A parsed Python `datetime` is a civil
date and time of day plus an optional fixed UTC offset in minutes (`tzinfo`);
instants are microseconds since the Unix epoch. The string parser models
CPython's pre-3.11 `datetime.fromisoformat` on the grammar subset
`YYYY-MM-DD[*HH:MM:SS[.ffffff]][(+|-)HH:MM]` (one separator character of any
kind, six-digit fractions, minute-precision offsets), which covers every
input shape the endpoints produce; `strptime(s, "%Y-%m-%d")` is modelled
with its flexible 1-2 digit month/day and 1-4 digit year widths. -/

structure PyDateTime where
  year : Int
  month : Nat
  day : Nat
  hour : Nat
  minute : Nat
  second : Nat
  microsecond : Nat
  tzoff : Option Int
deriving DecidableEq, Repr, Inhabited

def isLeap (y : Int) : Bool :=
  (y % 4 == 0 && y % 100 != 0) || y % 400 == 0

def daysInMonth (y : Int) (m : Nat) : Nat :=
  if m == 2 then (if isLeap y then 29 else 28)
  else if m == 4 || m == 6 || m == 9 || m == 11 then 30
  else 31

/-- Value of a decimal digit character, if it is one. -/
def dig (c : Char) : Option Nat :=
  if c.isDigit then some (c.toNat - 48) else none

/-- Six fractional-second digits after the dot. -/
def parseFrac : List Char → Option (Nat × List Char)
  | f1 :: f2 :: f3 :: f4 :: f5 :: f6 :: rest => do
    let a ← dig f1
    let b ← dig f2
    let c ← dig f3
    let d ← dig f4
    let e ← dig f5
    let f ← dig f6
    pure (((((a * 10 + b) * 10 + c) * 10 + d) * 10 + e) * 10 + f, rest)
  | _ => none

/-- Trailing UTC offset: absent, or `(+|-)HH:MM` with validated fields,
giving minutes east of UTC. -/
def parseOffset : List Char → Option (Option Int)
  | [] => some none
  | sign :: h1 :: h2 :: ':' :: m1 :: m2 :: [] => do
    let sg : Int ← if sign = '+' then some 1
      else if sign = '-' then some (-1) else none
    let a ← dig h1
    let b ← dig h2
    let c ← dig m1
    let d ← dig m2
    let hh := a * 10 + b
    let mm := c * 10 + d
    if hh ≤ 23 ∧ mm ≤ 59 then pure (some (sg * (hh * 60 + mm))) else none
  | _ => none

/-- Time of day `HH:MM:SS[.ffffff]` with optional trailing offset. -/
def parseTime (l : List Char) :
    Option (Nat × Nat × Nat × Nat × Option Int) :=
  match l with
  | h1 :: h2 :: ':' :: m1 :: m2 :: ':' :: s1 :: s2 :: rest => do
    let a ← dig h1
    let b ← dig h2
    let c ← dig m1
    let d ← dig m2
    let e ← dig s1
    let f ← dig s2
    let hh := a * 10 + b
    let mi := c * 10 + d
    let ss := e * 10 + f
    let fr ← match rest with
      | '.' :: r => parseFrac r
      | r => pure (0, r)
    let off ← parseOffset fr.2
    if hh ≤ 23 ∧ mi ≤ 59 ∧ ss ≤ 59 then pure (hh, mi, ss, fr.1, off)
    else none
  | _ => none

/-- Model of `datetime.fromisoformat` (pre-3.11): ten-character date, then
optionally one separator character of any kind followed by a time with
optional offset. Fields are range-checked as the CPython parser does. -/
def fromisoformat (s : String) : Option PyDateTime :=
  match s.toList with
  | y1 :: y2 :: y3 :: y4 :: '-' :: m1 :: m2 :: '-' :: d1 :: d2 :: rest => do
    let a ← dig y1
    let b ← dig y2
    let c ← dig y3
    let d ← dig y4
    let mA ← dig m1
    let mB ← dig m2
    let dA ← dig d1
    let dB ← dig d2
    let y : Int := ((a * 10 + b) * 10 + c) * 10 + d
    let mo := mA * 10 + mB
    let da := dA * 10 + dB
    if 1 ≤ y ∧ 1 ≤ mo ∧ mo ≤ 12 ∧ 1 ≤ da ∧ da ≤ daysInMonth y mo then
      match rest with
      | [] => pure { year := y, month := mo, day := da, hour := 0,
                     minute := 0, second := 0, microsecond := 0,
                     tzoff := none }
      | _sep :: tchars => do
        let t ← parseTime tchars
        pure { year := y, month := mo, day := da, hour := t.1,
               minute := t.2.1, second := t.2.2.1,
               microsecond := t.2.2.2.1, tzoff := t.2.2.2.2 }
    else none
  | _ => none

/-- The `datetime_str.replace("Z", "+00:00")` preprocessing: every `Z`
becomes `+00:00`. -/
def pyReplaceZ (s : String) : String :=
  String.mk (s.toList.foldr
    (fun c acc => if c = 'Z' then '+' :: '0' :: '0' :: ':' :: '0' :: '0' :: acc
      else c :: acc) [])

/-- `parse_iso_datetime` (`datetime_utils.py` lines 6-22). -/
def parse_iso_datetime (s : String) : Option PyDateTime :=
  fromisoformat (pyReplaceZ s)

def allDigits (l : List Char) : Bool := l.all Char.isDigit

def natOfDigits (l : List Char) : Nat :=
  l.foldl (fun a c => a * 10 + (c.toNat - 48)) 0

/-- The fallback branch of the day-boundary resolver: `strptime("%Y-%m-%d")`
followed by `datetime.combine(date, datetime.min.time(), tzinfo=utc)`, so
the result is an aware midnight with offset zero. -/
def strptime_date (s : String) : Option PyDateTime :=
  match s.splitOn ("-") with
  | [ys, ms, ds] =>
    let yl := ys.toList
    let ml := ms.toList
    let dl := ds.toList
    if allDigits yl ∧ allDigits ml ∧ allDigits dl ∧
        1 ≤ yl.length ∧ yl.length ≤ 4 ∧ 1 ≤ ml.length ∧ ml.length ≤ 2 ∧
        1 ≤ dl.length ∧ dl.length ≤ 2 then
      let y : Int := natOfDigits yl
      let mo := natOfDigits ml
      let da := natOfDigits dl
      if 1 ≤ y ∧ 1 ≤ mo ∧ mo ≤ 12 ∧ 1 ≤ da ∧ da ≤ daysInMonth y mo then
        some { year := y, month := mo, day := da, hour := 0, minute := 0,
               second := 0, microsecond := 0, tzoff := some 0 }
      else none
    else none
  | _ => none

/-- Day number of a civil date (days since 1970-01-01, proleptic
Gregorian). -/
def daysFromCivil (y : Int) (m d : Nat) : Int :=
  let y' : Int := if m ≤ 2 then y - 1 else y
  let era : Int := Int.fdiv y' 400
  let yoe : Nat := (y' - era * 400).toNat
  let mp : Nat := (m + 9) % 12
  let doy : Nat := (153 * mp + 2) / 5 + d - 1
  let doe : Nat := yoe * 365 + yoe / 4 - yoe / 100 + doy
  era * 146097 + (doe : Int) - 719468

/-- Instant (microseconds since the epoch) of a UTC civil date and time. -/
def utcMicros (y : Int) (mo d h mi s us : Nat) : Int :=
  (daysFromCivil y mo d * 86400 + ((h * 3600 + mi * 60 + s : Nat) : Int))
    * 1000000 + us

/-- Instant of a civil date and time read in a fixed offset (minutes east of
UTC); this is what `astimezone(timezone.utc)` yields for that aware
datetime. -/
def localInstant (y : Int) (mo d h mi s us : Nat) (offMinutes : Int) : Int :=
  utcMicros y mo d h mi s us - offMinutes * 60000000

/-- `get_day_boundaries_from_datetime` (`datetime_utils.py` lines 25-63):
parse as ISO datetime, falling back to a bare `%Y-%m-%d` date read as UTC;
take the civil date of the parsed value in its own timezone (UTC when naive),
and return the instants of that date's `00:00:00` and `23:59:59.999999` in
that timezone. `none` models the `ValueError` escaping when both parses
fail. -/
def get_day_boundaries_from_datetime (s : String) : Option (Int × Int) :=
  let parsed? : Option PyDateTime :=
    match parse_iso_datetime s with
    | some p => some p
    | none => strptime_date s
  match parsed? with
  | none => none
  | some p =>
    let off := p.tzoff.getD 0
    some (localInstant p.year p.month p.day 0 0 0 0 off,
          localInstant p.year p.month p.day 23 59 59 999999 off)

/-- Civil date of a day number (inverse of `daysFromCivil`). -/
def civilFromDays (z : Int) : CivilDate :=
  let z' := z + 719468
  let era : Int := Int.fdiv z' 146097
  let doe : Nat := (z' - era * 146097).toNat
  let yoe : Nat := (doe - doe / 1460 + doe / 36524 - doe / 146096) / 365
  let y : Int := (yoe : Int) + era * 400
  let doy : Nat := doe - (365 * yoe + yoe / 4 - yoe / 100)
  let mp : Nat := (5 * doy + 2) / 153
  let d : Nat := doy - (153 * mp + 2) / 5 + 1
  let m : Nat := if mp < 10 then mp + 3 else mp - 9
  { year := if m ≤ 2 then y + 1 else y, month := m, day := d }

/-- UTC calendar date an instant falls on. -/
def utcCivilDay (i : Int) : CivilDate :=
  civilFromDays (Int.fdiv i 86400000000)

/-! ## Spec-side helper definitions -/

/-- Store after the service loop processes one candidate: the committed
effect of one iteration of `create_or_update_multiple_miles_records`. -/
def svcStepStore (rid : String) (now : Int) (uid : String)
    (cand : MilesCandidate) (db : MilesStore) : MilesStore :=
  match get_miles_data_by_date_hour_source db uid cand.date_hour cand.source with
  | some r => replaceFirst (milesHit uid cand.date_hour cand.source)
      (milesApplyUpdate cand now r) db
  | none => db ++ [milesNewRecord rid uid cand now]

/-- The service bulk-upsert loop on the no-error path, written as a plain
recursion (store, processed in input order, created count, updated count).
`svcBulkGo noErr` computes exactly this (see `svcBulkGo_eq_svcRun`). As
there, the processed list captures rows by value at append time; the
caller-observed state of the source's live references is `sessionView` of
the final store. -/
def svcRun (freshId : Nat → String) (now : Int) (uid : String) :
    Nat → MilesStore → List MilesCandidate →
    MilesStore × List MilesRecord × Nat × Nat
  | _, db, [] => (db, [], 0, 0)
  | i, db, cand :: rest =>
    match get_miles_data_by_date_hour_source db uid cand.date_hour cand.source with
    | some r =>
      let r' := milesApplyUpdate cand now r
      let out := svcRun freshId now uid (i + 1)
        (replaceFirst (milesHit uid cand.date_hour cand.source) r' db) rest
      (out.1, r' :: out.2.1, out.2.2.1, out.2.2.2 + 1)
    | none =>
      let nr := milesNewRecord (freshId i) uid cand now
      let out := svcRun freshId now uid (i + 1) (db ++ [nr]) rest
      (out.1, nr :: out.2.1, out.2.2.1 + 1, out.2.2.2)

/-- Store state after the service bulk upsert has processed the first `n`
candidates of a batch (the prefix run, projected to its store). -/
def svcStoreAfter (freshId : Nat → String) (now : Int) (uid : String)
    (recs : List MilesCandidate) (db : MilesStore) (n : Nat) : MilesStore :=
  match create_or_update_multiple_miles_records noErr freshId now uid
      (recs.take n) db with
  | .ok (d, _, _, _) => d
  | .error d => d

/-- A stored row stripped of its `updated_at` lifecycle timestamp, for
comparing states up to the refresh the merge always performs. -/
def stripUpd (r : MilesRecord) : MilesRecord :=
  { r with updated_at := none }

/-- Key uniqueness of a store: at most one row per
`(user_id, date_hour, source)` — the invariant the unique constraint
enforces. -/
def keyUnique (db : MilesStore) : Prop :=
  (db.map milesKey).Nodup

instance (db : MilesStore) : Decidable (keyUnique db) := by
  unfold keyUnique
  infer_instance

/-- The processed list as the caller observes it. The source's
`processed_records` holds live session objects: the loop appends the very
ORM instance it created or mutated, and the session's identity map keeps one
instance per row, so by the time the caller reads the list every entry shows
its row's final state. In the embedding, where `svcRun` captured rows by
value as the loop appended them, that observation is recovered by resolving
each appended entry's natural key against the final store: the key fields
are never mutated, and the loop always created or updated the first row
matching them. -/
def sessionView (db : MilesStore) (ps : List MilesRecord) :
    List MilesRecord :=
  ps.map (fun p => (db.find? (milesHit p.user_id p.date_hour p.source)).getD p)

/-- Invariant driving the replay argument for re-applied batches: `x` and
`r` are two states of one row for the key `(_, dh, src)` (equal except
possibly in `miles`, `activity_type` and `updated_at`), and every metric
field on which they disagree is still going to be overwritten by some
remaining candidate for that key. -/
def laterOverwrites (dh : Int) (src : String) (l : List MilesCandidate)
    (x r : MilesRecord) : Prop :=
  x.id = r.id ∧ x.user_id = r.user_id ∧ x.date_hour = r.date_hour ∧
  x.source = r.source ∧ x.created_at = r.created_at ∧
  (x.miles ≠ r.miles →
    ∃ c ∈ l, c.date_hour = dh ∧ c.source = src ∧ c.miles ≠ none) ∧
  (x.activity_type ≠ r.activity_type →
    ∃ c ∈ l, c.date_hour = dh ∧ c.source = src ∧ c.activity_type ≠ none)

/-! ## Sample data used by witnesses and counterexamples -/

def sampleOtherUserRecord : MilesRecord :=
  { id := "m1", user_id := "u2", date_hour := 100,
    miles := some 3, activity_type := none, source := "man",
    created_at := some 1, updated_at := none }

def candA : MilesCandidate :=
  { date_hour := 100, miles := some 5, activity_type := none,
    source := "man" }

def candB : MilesCandidate :=
  { date_hour := 100, miles := none, activity_type := some "run",
    source := "man" }

def candC : MilesCandidate :=
  { date_hour := 100, miles := some 2, activity_type := none,
    source := "dev" }

def candD : MilesCandidate :=
  { date_hour := 200, miles := some 1, activity_type := none,
    source := "man" }

def sampleFreshId : Nat → String :=
  fun i => if i == 0 then "r0" else if i == 1 then "r1" else "r2"

/-- A nutrition record whose calories are a measured zero. -/
def nutritionRecZero : NutritionMacrosRec :=
  { id := "n0", user_id := "u1", date := { year := 2025, month := 1, day := 1 },
    time_us := 0, protein := none, carbs := none, fat := none,
    calories := some 0, meal_name := none }

/-- A nutrition record with no calories value at all. -/
def nutritionRecNull : NutritionMacrosRec :=
  { id := "n1", user_id := "u1", date := { year := 2025, month := 1, day := 1 },
    time_us := 3600000000, protein := none, carbs := none, fat := none,
    calories := none, meal_name := none }

/-- A stored heart-rate row with a present reading. -/
def hrExisting : HRRecord :=
  { user_id := "u1", date := 100, heart_rate := some 70, min_hr := some 50,
    avg_hr := none, max_hr := none, resting_hr := none,
    heart_rate_variability := none, source := "man", created_at := some 1,
    updated_at := none }

/-! ## Helper lemmas about the store primitives -/

theorem find?_replaceFirst_self {α : Type} {p : α → Bool} {x : α}
    {l : List α} {r : α} (hf : l.find? p = some r) (hx : p x = true) :
    (replaceFirst p x l).find? p = some x := by
  induction l with
  | nil => simp at hf
  | cons a as ih =>
    cases hpa : p a with
    | true => simp [replaceFirst, hpa, List.find?_cons_of_pos _ hx]
    | false =>
      rw [List.find?_cons_of_neg _ (by simp [hpa])] at hf
      simp only [replaceFirst, hpa, Bool.false_eq_true, if_false]
      rw [List.find?_cons_of_neg _ (by simp [hpa])]
      exact ih hf

theorem mem_replaceFirst_of_pred_false {α : Type} {p : α → Bool} {x : α}
    {l : List α} {r : α} (hr : r ∈ l) (hp : p r = false) :
    r ∈ replaceFirst p x l := by
  induction l with
  | nil => simp at hr
  | cons a as ih =>
    rcases List.mem_cons.mp hr with h | h
    · subst h
      simp [replaceFirst, hp]
    · cases hpa : p a with
      | true => simp [replaceFirst, hpa, List.mem_cons, h]
      | false =>
        simp only [replaceFirst, hpa, Bool.false_eq_true, if_false]
        exact List.mem_cons_of_mem _ (ih h)

theorem find?_append_of_none {α : Type} {p : α → Bool} {l1 l2 : List α}
    (h : l1.find? p = none) : (l1 ++ l2).find? p = l2.find? p := by
  induction l1 with
  | nil => simp
  | cons a as ih =>
    rw [List.cons_append]
    cases hpa : p a with
    | true =>
      rw [List.find?_cons_of_pos _ hpa] at h
      exact absurd h (by simp)
    | false =>
      rw [List.find?_cons_of_neg _ (by simp [hpa])] at h
      rw [List.find?_cons_of_neg _ (by simp [hpa])]
      exact ih h

/-! ## Service-loop infrastructure lemmas -/

theorem milesApplyUpdate_key_fields (c : MilesCandidate) (now : Int)
    (r : MilesRecord) :
    (milesApplyUpdate c now r).user_id = r.user_id ∧
    (milesApplyUpdate c now r).date_hour = r.date_hour ∧
    (milesApplyUpdate c now r).source = r.source := by
  cases hm : c.miles <;> cases hat : c.activity_type <;>
    simp [milesApplyUpdate, hm, hat]

theorem milesKey_milesApplyUpdate (c : MilesCandidate) (now : Int)
    (r : MilesRecord) :
    milesKey (milesApplyUpdate c now r) = milesKey r := by
  obtain ⟨h1, h2, h3⟩ := milesApplyUpdate_key_fields c now r
  simp [milesKey, h1, h2, h3]

theorem milesHit_milesApplyUpdate (uid : String) (dh : Int) (src : String)
    (c : MilesCandidate) (now : Int) (r : MilesRecord) :
    milesHit uid dh src (milesApplyUpdate c now r) = milesHit uid dh src r := by
  obtain ⟨h1, h2, h3⟩ := milesApplyUpdate_key_fields c now r
  simp [milesHit, h1, h2, h3]

theorem milesHit_milesNewRecord (rid uid : String) (c : MilesCandidate)
    (now : Int) :
    milesHit uid c.date_hour c.source (milesNewRecord rid uid c now) = true := by
  simp [milesHit, milesNewRecord]

theorem milesKey_milesNewRecord (rid uid : String) (c : MilesCandidate)
    (now : Int) :
    milesKey (milesNewRecord rid uid c now) = candKey uid c := rfl

theorem svcBulkGo_eq_svcRun (freshId : Nat → String) (now : Int)
    (uid : String) (l : List MilesCandidate) :
    ∀ (i : Nat) (db : MilesStore) (ps : List MilesRecord) (c u : Nat),
    svcBulkGo noErr freshId now uid i db ps c u l =
      .ok ((svcRun freshId now uid i db l).1,
           ps ++ (svcRun freshId now uid i db l).2.1,
           c + (svcRun freshId now uid i db l).2.2.1,
           u + (svcRun freshId now uid i db l).2.2.2) := by
  induction l with
  | nil =>
    intro i db ps c u
    simp [svcBulkGo, svcRun]
  | cons cand rest ih =>
    intro i db ps c u
    simp only [svcBulkGo, svcRun, noErr, Bool.false_eq_true, if_false]
    cases hl : get_miles_data_by_date_hour_source db uid cand.date_hour
        cand.source with
    | some r =>
      simp only [hl]
      rw [ih]
      simp [List.append_assoc, Nat.add_assoc, Nat.add_comm, Nat.add_left_comm]
    | none =>
      simp only [hl]
      rw [ih]
      simp [List.append_assoc, Nat.add_assoc, Nat.add_comm, Nat.add_left_comm]

theorem create_eq_svcRun (freshId : Nat → String) (now : Int) (uid : String)
    (recs : List MilesCandidate) (db : MilesStore) :
    create_or_update_multiple_miles_records noErr freshId now uid recs db =
      .ok (svcRun freshId now uid 0 db recs) := by
  rw [create_or_update_multiple_miles_records, svcBulkGo_eq_svcRun]
  simp

theorem svcRun_shift (now : Int) (uid : String) (l : List MilesCandidate) :
    ∀ (freshId : Nat → String) (i : Nat) (db : MilesStore),
    svcRun freshId now uid (i + 1) db l =
      svcRun (fun j => freshId (j + 1)) now uid i db l := by
  induction l with
  | nil => intro freshId i db; rfl
  | cons cand rest ih =>
    intro freshId i db
    simp only [svcRun]
    cases hl : get_miles_data_by_date_hour_source db uid cand.date_hour
        cand.source with
    | some r => simp only [hl, ih]
    | none => simp only [hl, ih]

theorem svcStoreAfter_zero (freshId : Nat → String) (now : Int)
    (uid : String) (recs : List MilesCandidate) (db : MilesStore) :
    svcStoreAfter freshId now uid recs db 0 = db := by
  simp [svcStoreAfter, create_eq_svcRun, svcRun]

theorem svcStoreAfter_cons (freshId : Nat → String) (now : Int)
    (uid : String) (cand : MilesCandidate) (rest : List MilesCandidate)
    (db : MilesStore) (n : Nat) :
    svcStoreAfter freshId now uid (cand :: rest) db (n + 1) =
      svcStoreAfter (fun j => freshId (j + 1)) now uid rest
        (svcStepStore (freshId 0) now uid cand db) n := by
  unfold svcStoreAfter svcStepStore
  rw [List.take_succ_cons, create_eq_svcRun, create_eq_svcRun]
  simp only [svcRun]
  cases hl : get_miles_data_by_date_hour_source db uid cand.date_hour
      cand.source with
  | some r => simp only [hl, svcRun_shift]
  | none => simp only [hl, svcRun_shift]

theorem milesHit_true_iff (uid : String) (dh : Int) (src : String)
    (r : MilesRecord) :
    milesHit uid dh src r = true ↔
      r.user_id = uid ∧ r.date_hour = dh ∧ r.source = src := by
  simp [milesHit, and_assoc]

theorem svcRun_spec (now : Int) (uid : String) :
    ∀ (recs : List MilesCandidate) (freshId : Nat → String) (db : MilesStore),
    (svcRun freshId now uid 0 db recs).2.1.length = recs.length ∧
    (svcRun freshId now uid 0 db recs).2.2.1 +
      (svcRun freshId now uid 0 db recs).2.2.2 = recs.length ∧
    List.Forall₂ (fun (p : MilesRecord) (cand : MilesCandidate) =>
      p.user_id = uid ∧ p.date_hour = cand.date_hour ∧ p.source = cand.source)
      (svcRun freshId now uid 0 db recs).2.1 recs ∧
    (svcRun freshId now uid 0 db recs).2.2.1 =
      (List.range recs.length).countP (fun n =>
        (get_miles_data_by_date_hour_source
          (svcStoreAfter freshId now uid recs db n) uid
          (recs.getD n default).date_hour
          (recs.getD n default).source).isNone) := by
  intro recs
  induction recs with
  | nil => intro freshId db; exact ⟨rfl, rfl, List.Forall₂.nil, rfl⟩
  | cons cand rest ih =>
    intro freshId db
    simp only [svcRun]
    cases hl : get_miles_data_by_date_hour_source db uid cand.date_hour
        cand.source with
    | some r =>
      simp only [hl, svcRun_shift]
      obtain ⟨ih1, ih2, ih3, ih4⟩ := ih (fun j => freshId (j + 1))
        (replaceFirst (milesHit uid cand.date_hour cand.source)
          (milesApplyUpdate cand now r) db)
      have hkey : r.user_id = uid ∧ r.date_hour = cand.date_hour ∧
          r.source = cand.source :=
        (milesHit_true_iff uid cand.date_hour cand.source r).mp
          (List.find?_some hl)
      obtain ⟨hku, hkd, hks⟩ := milesApplyUpdate_key_fields cand now r
      refine ⟨by simpa using ih1,
        by simp only [List.length_cons]; omega, ?_, ?_⟩
      · exact List.Forall₂.cons
          ⟨hku.trans hkey.1, hkd.trans hkey.2.1, hks.trans hkey.2.2⟩ ih3
      · simp only [List.length_cons]
        rw [List.range_succ_eq_map, List.countP_cons]
        have hzero : svcStoreAfter freshId now uid (cand :: rest) db 0 = db :=
          svcStoreAfter_zero freshId now uid (cand :: rest) db
        simp only [List.getD_cons_zero, hzero, hl, Option.isNone_some,
          List.countP_map]
        have hstep : svcStepStore (freshId 0) now uid cand db =
            replaceFirst (milesHit uid cand.date_hour cand.source)
              (milesApplyUpdate cand now r) db := by
          simp [svcStepStore, hl]
        simp only [Function.comp_def, svcStoreAfter_cons, hstep,
          List.getD_cons_succ, Bool.false_eq_true, if_false, if_true]
        omega
    | none =>
      simp only [hl, svcRun_shift]
      obtain ⟨ih1, ih2, ih3, ih4⟩ := ih (fun j => freshId (j + 1))
        (db ++ [milesNewRecord (freshId 0) uid cand now])
      refine ⟨by simpa using ih1,
        by simp only [List.length_cons]; omega, ?_, ?_⟩
      · exact List.Forall₂.cons
          (by simp [milesNewRecord]) ih3
      · simp only [List.length_cons]
        rw [List.range_succ_eq_map, List.countP_cons]
        have hzero : svcStoreAfter freshId now uid (cand :: rest) db 0 = db :=
          svcStoreAfter_zero freshId now uid (cand :: rest) db
        simp only [List.getD_cons_zero, hzero, hl, Option.isNone_none,
          List.countP_map]
        have hstep : svcStepStore (freshId 0) now uid cand db =
            db ++ [milesNewRecord (freshId 0) uid cand now] := by
          simp [svcStepStore, hl]
        simp only [Function.comp_def, svcStoreAfter_cons, hstep,
          List.getD_cons_succ, Bool.false_eq_true, if_false, if_true]
        omega

/-- Shared day-boundary computation lemma: once the input parses, the
boundaries are the parsed date's midnight and end of day in the parsed
offset (UTC when naive). -/
theorem day_boundaries_of_parse {s : String} {p : PyDateTime}
    (hp : parse_iso_datetime s = some p) :
    get_day_boundaries_from_datetime s =
      some (localInstant p.year p.month p.day 0 0 0 0 (p.tzoff.getD 0),
            localInstant p.year p.month p.day 23 59 59 999999
              (p.tzoff.getD 0)) := by
  simp [get_day_boundaries_from_datetime, hp]

/-! ## Claims -/

/-- C9: deleting or getting a miles record by id when no record with that id
exists for the given owner (nonexistent id, or a record owned by a different
user) returns `None` — surfaced by the endpoints as a typed 404, not a
generic exception — and leaves the store unchanged. -/
theorem not_found_typed_and_store_unchanged (db : MilesStore)
    (uid rid : String) (h : ∀ r ∈ db, ¬(r.id = rid ∧ r.user_id = uid)) :
    get_miles_data_by_id db uid rid = none ∧
    delete_miles_record db uid rid = (none, db) := by
  have hf : db.find? (fun r => r.id == rid && r.user_id == uid) = none := by
    rw [List.find?_eq_none]
    intro r hr
    simpa using h r hr
  exact ⟨by simp [get_miles_data_by_id, hf],
         by simp [delete_miles_record, hf]⟩

/-- Witness for C9: a store holding one record of user `u2`; user `u1`
neither gets nor deletes it under its id, and the store is untouched. -/
theorem not_found_typed_and_store_unchanged_witness :
    (∀ r ∈ [sampleOtherUserRecord],
      ¬(r.id = "m1" ∧ r.user_id = "u1")) ∧
    get_miles_data_by_id [sampleOtherUserRecord] ("u1") ("m1") = none ∧
    delete_miles_record [sampleOtherUserRecord] ("u1") ("m1") =
      (none, [sampleOtherUserRecord]) :=
  ⟨by decide,
   (not_found_typed_and_store_unchanged [sampleOtherUserRecord] ("u1")
      ("m1") (by decide)).1,
   (not_found_typed_and_store_unchanged [sampleOtherUserRecord] ("u1")
      ("m1") (by decide)).2⟩

/-- C10: an input that parses as an ISO datetime but carries no
timezone/offset information is treated as UTC: the boundaries are the UTC
civil day of its date, midnight through 23:59:59.999999, with no error. -/
theorem naive_datetime_day_boundaries (s : String) (p : PyDateTime)
    (hp : parse_iso_datetime s = some p) (hn : p.tzoff = none) :
    get_day_boundaries_from_datetime s =
      some (utcMicros p.year p.month p.day 0 0 0 0,
            utcMicros p.year p.month p.day 23 59 59 999999) := by
  rw [day_boundaries_of_parse hp, hn]
  simp [localInstant, Option.getD]

set_option maxHeartbeats 4000000 in
/-- Witness for C10 at the input shape the spec leaves unspecified. -/
theorem naive_datetime_day_boundaries_witness :
    parse_iso_datetime ("2025-11-06T22:23:22") =
      some { year := 2025, month := 11, day := 6, hour := 22, minute := 23,
             second := 22, microsecond := 0, tzoff := none } ∧
    get_day_boundaries_from_datetime ("2025-11-06T22:23:22") =
      some (utcMicros 2025 11 6 0 0 0 0,
            utcMicros 2025 11 6 23 59 59 999999) := by
  have hp : parse_iso_datetime ("2025-11-06T22:23:22") =
      some { year := 2025, month := 11, day := 6, hour := 22, minute := 23,
             second := 22, microsecond := 0, tzoff := none } := by decide
  exact ⟨hp, naive_datetime_day_boundaries _ _ hp rfl⟩

set_option maxHeartbeats 3200000 in
/-- C6: day boundaries follow the input's explicit offset when present
(midnight to the inclusive 23:59:59.999999 end of day in that offset,
converted to UTC instants), fall back to the UTC civil day for inputs
without offset information (bare dates and the strptime fallback alike),
always span exactly one day minus one microsecond, and a day computed in a
non-UTC offset may straddle two UTC calendar dates without being corrected
(witnessed at `2025-11-06T22:23:22-05:00`, whose bounds fall on Nov 6 and
Nov 7 UTC). -/
theorem day_boundaries_spec :
    (∀ s p o, parse_iso_datetime s = some p → p.tzoff = some o →
      get_day_boundaries_from_datetime s =
        some (localInstant p.year p.month p.day 0 0 0 0 o,
              localInstant p.year p.month p.day 23 59 59 999999 o)) ∧
    (∀ s p, parse_iso_datetime s = some p → p.tzoff = none →
      get_day_boundaries_from_datetime s =
        some (utcMicros p.year p.month p.day 0 0 0 0,
              utcMicros p.year p.month p.day 23 59 59 999999)) ∧
    (∀ s p, parse_iso_datetime s = none → strptime_date s = some p →
      get_day_boundaries_from_datetime s =
        some (utcMicros p.year p.month p.day 0 0 0 0,
              utcMicros p.year p.month p.day 23 59 59 999999)) ∧
    (∀ (y : Int) (mo d : Nat) (o : Int),
      localInstant y mo d 23 59 59 999999 o =
        localInstant y mo d 0 0 0 0 o + 86399999999) ∧
    (get_day_boundaries_from_datetime ("2025-11-06T22:23:22-05:00") =
        some (utcMicros 2025 11 6 5 0 0 0,
              utcMicros 2025 11 7 4 59 59 999999) ∧
      utcCivilDay (utcMicros 2025 11 6 5 0 0 0) ≠
        utcCivilDay (utcMicros 2025 11 7 4 59 59 999999)) := by
  refine ⟨?_, ?_, ?_, ?_, ?_, ?_⟩
  · intro s p o hp ho
    rw [day_boundaries_of_parse hp, ho]
    rfl
  · intro s p hp hn
    rw [day_boundaries_of_parse hp, hn]
    simp [localInstant, Option.getD]
  · intro s p hp hs
    have hoff : p.tzoff = some 0 := by
      unfold strptime_date at hs
      rcases hmatch : s.splitOn ("-") with _ | ⟨ys, _ | ⟨ms, _ | ⟨ds, _ | _⟩⟩⟩ <;>
        simp [hmatch] at hs
      obtain ⟨-, -, h3⟩ := hs
      subst h3
      rfl
    simp [get_day_boundaries_from_datetime, hp, hs, hoff, localInstant]
  · intro y mo d o
    simp only [localInstant, utcMicros]
    push_cast
    ring
  · decide
  · decide

set_option maxHeartbeats 4000000 in
/-- Witness for C6: the offset branch applied at the concrete local-day
input. -/
theorem day_boundaries_spec_witness :
    parse_iso_datetime ("2025-11-06T22:23:22-05:00") =
      some { year := 2025, month := 11, day := 6, hour := 22, minute := 23,
             second := 22, microsecond := 0, tzoff := some (-300) } ∧
    get_day_boundaries_from_datetime ("2025-11-06T22:23:22-05:00") =
      some (localInstant 2025 11 6 0 0 0 0 (-300),
            localInstant 2025 11 6 23 59 59 999999 (-300)) := by
  have hp : parse_iso_datetime ("2025-11-06T22:23:22-05:00") =
      some { year := 2025, month := 11, day := 6, hour := 22, minute := 23,
             second := 22, microsecond := 0, tzoff := some (-300) } := by decide
  exact ⟨hp, day_boundaries_spec.1 _ _ _ hp rfl⟩

/-- Counterexample to C2: aggregating a day group made of one sample with
`calories = 0` and one with `calories = None` reports `total_calories =
None`, not `0` — the `total if total > 0 else None` guard cannot tell a
zero total from no data. -/
theorem agg_zero_vs_null_cex :
    (get_macro_aggregations [nutritionRecZero, nutritionRecNull]).map
        (fun a => a.total_calories) = [none] ∧
    (get_macro_aggregations [nutritionRecZero, nutritionRecNull]).map
        (fun a => a.total_calories) ≠ [some (0 : ℚ)] := by
  constructor
  · decide
  · decide

/-- C2 as amended: in day-level aggregation a summed field is reported only
when the truthy-filtered sum is strictly positive. A group whose members are
all null for the field totals to null (the true half of the claim), and a
group whose members are each null or zero — in particular one zero among
nulls — also totals to null rather than zero (the corrected half). -/
theorem agg_total_null_semantics (get : NutritionMacrosRec → Option ℚ)
    (grp : List NutritionMacrosRec) :
    ((∀ r ∈ grp, get r = none) → pyAggTotal get grp = none) ∧
    ((∀ r ∈ grp, get r = none ∨ get r = some 0) →
      pyAggTotal get grp = none) := by
  have key : ∀ (h : ∀ r ∈ grp, get r = none ∨ get r = some 0),
      pyAggTotal get grp = none := by
    intro h
    have hfil : grp.filter (fun r => pyTruthy (get r)) = [] := by
      rw [List.filter_eq_nil_iff]
      intro r hr
      rcases h r hr with h1 | h1 <;> simp [pyTruthy, h1]
    have hs : pySumField get grp = 0 := by
      simp [pySumField, hfil]
    simp [pyAggTotal, hs]
  exact ⟨fun h => key (fun r hr => Or.inl (h r hr)), key⟩

/-- Witness for the amended C2 at the concrete zero-plus-null group. -/
theorem agg_total_null_semantics_witness :
    (∀ r ∈ [nutritionRecZero, nutritionRecNull],
      (fun q : NutritionMacrosRec => q.calories) r = none ∨
      (fun q : NutritionMacrosRec => q.calories) r = some 0) ∧
    pyAggTotal (fun q : NutritionMacrosRec => q.calories)
      [nutritionRecZero, nutritionRecNull] = none :=
  ⟨by decide,
   (agg_total_null_semantics (fun q => q.calories)
      [nutritionRecZero, nutritionRecNull]).2 (by decide)⟩

/-- Counterexample to C3: the heart-rate ingest merge overwrites
`heart_rate` even when the candidate value is absent. Merging a data point
with `heart_rate = None` into a row holding `70` leaves the row with
`heart_rate = None` — the claim's uniform "overwrite only if present" rule
fails on `ingest_heart_rate_data` (`heartrate.py` lines 134-137). -/
theorem heart_rate_absent_overwrite_cex :
    hrExisting.heart_rate = some 70 ∧
    ((ingest_heart_rate_point ("u1") 100 ("man") none 7 [hrExisting] []).1.map
      (fun r => r.heart_rate)) = [none] := by
  constructor
  · rfl
  · decide

/-- C3 as amended: the sparse-overwrite rule (candidate field overwrites the
stored field iff the candidate value is present; absent candidate fields
keep the stored value, natural-key fields never change) holds for the miles
bulk-upsert merge, but not uniformly across kinds: the heart-rate ingest
merge assigns the candidate `heart_rate` unconditionally, so an absent
candidate value replaces the stored reading with null (the untouched columns
of the row do keep their values). -/
theorem merge_overwrite_semantics :
    (∀ (freshId : Nat → String) (now : Int) (uid : String)
        (c : MilesCandidate) (db : MilesStore) (r : MilesRecord),
      get_miles_data_by_date_hour_source db uid c.date_hour c.source = some r →
      create_or_update_multiple_miles_records noErr freshId now uid [c] db =
        .ok (replaceFirst (milesHit uid c.date_hour c.source)
              (milesApplyUpdate c now r) db,
             [milesApplyUpdate c now r], 0, 1) ∧
      (∀ v, c.miles = some v → (milesApplyUpdate c now r).miles = some v) ∧
      (c.miles = none → (milesApplyUpdate c now r).miles = r.miles) ∧
      (∀ v, c.activity_type = some v →
        (milesApplyUpdate c now r).activity_type = some v) ∧
      (c.activity_type = none →
        (milesApplyUpdate c now r).activity_type = r.activity_type) ∧
      (milesApplyUpdate c now r).user_id = r.user_id ∧
      (milesApplyUpdate c now r).date_hour = r.date_hour ∧
      (milesApplyUpdate c now r).source = r.source ∧
      (milesApplyUpdate c now r).updated_at = some now) ∧
    (∀ (uid : String) (dt : Int) (src : String) (hr : Option Int) (now : Int)
        (sess pend : List HRRecord) (r : HRRecord),
      sess.find? (hrHit uid dt src) = some r →
      ∃ r', ((ingest_heart_rate_point uid dt src hr now sess pend).1).find?
          (hrHit uid dt src) = some r' ∧
        r'.heart_rate = hr ∧
        r'.min_hr = r.min_hr ∧ r'.avg_hr = r.avg_hr ∧ r'.max_hr = r.max_hr ∧
        r'.resting_hr = r.resting_hr ∧
        r'.heart_rate_variability = r.heart_rate_variability ∧
        (ingest_heart_rate_point uid dt src hr now sess pend).2 = pend) := by
  constructor
  · intro freshId now uid c db r h
    refine ⟨?_, ?_, ?_, ?_, ?_, ?_, ?_, ?_, ?_⟩
    · simp [create_or_update_multiple_miles_records, svcBulkGo, noErr, h]
    · intro v hv
      cases hat : c.activity_type <;> simp [milesApplyUpdate, hv, hat]
    · intro hv
      cases hat : c.activity_type <;> simp [milesApplyUpdate, hv, hat]
    · intro v hv
      cases hm : c.miles <;> simp [milesApplyUpdate, hv, hm]
    · intro hv
      cases hm : c.miles <;> simp [milesApplyUpdate, hv, hm]
    · cases hm : c.miles <;> cases hat : c.activity_type <;>
        simp [milesApplyUpdate, hm, hat]
    · cases hm : c.miles <;> cases hat : c.activity_type <;>
        simp [milesApplyUpdate, hm, hat]
    · cases hm : c.miles <;> cases hat : c.activity_type <;>
        simp [milesApplyUpdate, hm, hat]
    · cases hm : c.miles <;> cases hat : c.activity_type <;>
        simp [milesApplyUpdate, hm, hat]
  · intro uid dt src hr now sess pend r h
    have hr' : hrHit uid dt src
        ({ r with heart_rate := hr, updated_at := some now }) = true := by
      have hp := List.find?_some h
      simpa [hrHit] using hp
    refine ⟨{ r with heart_rate := hr, updated_at := some now }, ?_,
      rfl, rfl, rfl, rfl, rfl, rfl, ?_⟩
    · simp only [ingest_heart_rate_point, h]
      exact find?_replaceFirst_self h hr'
    · simp [ingest_heart_rate_point, h]

/-- Witness for the amended C3: merging candidate B (absent miles, present
activity type) into the stored result of candidate A keeps the stored miles
and overwrites the activity type; the heart-rate conjunct applied at the
stored row with an absent candidate value. -/
theorem merge_overwrite_semantics_witness :
    get_miles_data_by_date_hour_source
      [milesNewRecord ("r0") ("u1") candA 5] ("u1")
      candB.date_hour candB.source =
        some (milesNewRecord ("r0") ("u1") candA 5) ∧
    create_or_update_multiple_miles_records noErr sampleFreshId 6 ("u1")
      [candB] [milesNewRecord ("r0") ("u1") candA 5] =
      .ok (replaceFirst (milesHit ("u1") candB.date_hour candB.source)
            (milesApplyUpdate candB 6 (milesNewRecord ("r0") ("u1") candA 5))
            [milesNewRecord ("r0") ("u1") candA 5],
           [milesApplyUpdate candB 6 (milesNewRecord ("r0") ("u1") candA 5)],
           0, 1) ∧
    (milesApplyUpdate candB 6 (milesNewRecord ("r0") ("u1") candA 5)).miles =
      some 5 ∧
    (milesApplyUpdate candB 6
        (milesNewRecord ("r0") ("u1") candA 5)).activity_type = some "run" := by
  have h : get_miles_data_by_date_hour_source
      [milesNewRecord ("r0") ("u1") candA 5] ("u1")
      candB.date_hour candB.source =
        some (milesNewRecord ("r0") ("u1") candA 5) := by decide
  have hm := (merge_overwrite_semantics.1 sampleFreshId 6 ("u1") candB
    [milesNewRecord ("r0") ("u1") candA 5]
    (milesNewRecord ("r0") ("u1") candA 5) h)
  exact ⟨h, hm.1, by decide, by decide⟩

/-- C7: two samples with the same owner and timestamp but different sources
never merge. Upserting any candidate leaves every stored row of a different
source untouched (the deduplicator filter includes `source`), and upserting
two candidates that differ only in `source` into an empty store creates two
independent records. -/
theorem distinct_sources_never_merge :
    (∀ (freshId : Nat → String) (now : Int) (uid : String)
        (c : MilesCandidate) (db db' : MilesStore) (ps : List MilesRecord)
        (cc uu : Nat),
      create_or_update_multiple_miles_records noErr freshId now uid [c] db =
        .ok (db', ps, cc, uu) →
      ∀ r ∈ db, r.source ≠ c.source → r ∈ db') ∧
    (∀ (freshId : Nat → String) (now : Int) (uid : String)
        (a b : MilesCandidate), a.date_hour = b.date_hour →
      a.source ≠ b.source →
      create_or_update_multiple_miles_records noErr freshId now uid [a, b] [] =
        .ok ([milesNewRecord (freshId 0) uid a now,
              milesNewRecord (freshId 1) uid b now],
             [milesNewRecord (freshId 0) uid a now,
              milesNewRecord (freshId 1) uid b now], 2, 0)) := by
  constructor
  · intro freshId now uid c db db' ps cc uu hrun r hrdb hsrc
    have hpr : milesHit uid c.date_hour c.source r = false := by
      simp [milesHit, hsrc]
    cases hl : get_miles_data_by_date_hour_source db uid c.date_hour c.source with
    | some q =>
      simp [create_or_update_multiple_miles_records, svcBulkGo, noErr, hl]
        at hrun
      obtain ⟨hdb, -, -, -⟩ := hrun
      subst hdb
      exact mem_replaceFirst_of_pred_false hrdb hpr
    | none =>
      simp [create_or_update_multiple_miles_records, svcBulkGo, noErr, hl]
        at hrun
      obtain ⟨hdb, -, -, -⟩ := hrun
      subst hdb
      exact List.mem_append_left _ hrdb
  · intro freshId now uid a b hd hs
    have h1 : get_miles_data_by_date_hour_source [] uid a.date_hour a.source
        = none := rfl
    have h2 : get_miles_data_by_date_hour_source
        [milesNewRecord (freshId 0) uid a now] uid b.date_hour b.source
        = none := by
      simp [get_miles_data_by_date_hour_source, milesHit, milesNewRecord,
        hd, hs]
    simp [create_or_update_multiple_miles_records, svcBulkGo, noErr, h1, h2]

/-- Witness for C7: candidates A (manual) and C (device) share the
timestamp; both persist in the store as independent rows. -/
theorem distinct_sources_never_merge_witness :
    candA.date_hour = candC.date_hour ∧ candA.source ≠ candC.source ∧
    create_or_update_multiple_miles_records noErr sampleFreshId 5 ("u1")
      [candA, candC] [] =
      .ok ([milesNewRecord (sampleFreshId 0) ("u1") candA 5,
            milesNewRecord (sampleFreshId 1) ("u1") candC 5],
           [milesNewRecord (sampleFreshId 0) ("u1") candA 5,
            milesNewRecord (sampleFreshId 1) ("u1") candC 5], 2, 0) :=
  ⟨rfl, by decide,
   distinct_sources_never_merge.2 sampleFreshId 5 ("u1") candA candC rfl
     (by decide)⟩

/-- C8: on the normal path the service bulk upsert returns one processed
record per input candidate, in input order (each processed record carries
the owner and the candidate's natural-key fields, position by position);
`created_count` counts exactly the candidates whose key lookup against the
store state at their turn found nothing, and
`created_count + updated_count` equals both the number of input candidates
and the length of `processed`. -/
theorem bulk_counts_and_order (freshId : Nat → String) (now : Int)
    (uid : String) (recs : List MilesCandidate) (db db' : MilesStore)
    (ps : List MilesRecord) (c u : Nat)
    (hrun : create_or_update_multiple_miles_records noErr freshId now uid
      recs db = .ok (db', ps, c, u)) :
    ps.length = recs.length ∧ c + u = recs.length ∧
    List.Forall₂ (fun (p : MilesRecord) (cand : MilesCandidate) =>
      p.user_id = uid ∧ p.date_hour = cand.date_hour ∧ p.source = cand.source)
      ps recs ∧
    c = (List.range recs.length).countP (fun n =>
      (get_miles_data_by_date_hour_source
        (svcStoreAfter freshId now uid recs db n) uid
        (recs.getD n default).date_hour
        (recs.getD n default).source).isNone) := by
  rw [create_eq_svcRun] at hrun
  injection hrun with h
  obtain ⟨h1, h2, h3, h4⟩ := svcRun_spec now uid recs freshId db
  rw [h] at h1 h2 h3 h4
  exact ⟨h1, h2, h3, h4⟩

/-- Witness for C8: the two-candidate batch A then B (same natural key)
creates once and updates once, in input order. -/
theorem bulk_counts_and_order_witness :
    (create_or_update_multiple_miles_records noErr sampleFreshId 5 ("u1")
      [candA, candB] [] =
      .ok ([milesApplyUpdate candB 5 (milesNewRecord ("r0") ("u1") candA 5)],
           [milesNewRecord ("r0") ("u1") candA 5,
            milesApplyUpdate candB 5 (milesNewRecord ("r0") ("u1") candA 5)],
           1, 1)) ∧
    ([milesNewRecord ("r0") ("u1") candA 5,
      milesApplyUpdate candB 5 (milesNewRecord ("r0") ("u1") candA 5)].length =
        [candA, candB].length ∧
     1 + 1 = [candA, candB].length ∧
     List.Forall₂ (fun (p : MilesRecord) (cand : MilesCandidate) =>
       p.user_id = "u1" ∧ p.date_hour = cand.date_hour ∧
       p.source = cand.source)
       [milesNewRecord ("r0") ("u1") candA 5,
        milesApplyUpdate candB 5 (milesNewRecord ("r0") ("u1") candA 5)]
       [candA, candB] ∧
     1 = (List.range [candA, candB].length).countP (fun n =>
       (get_miles_data_by_date_hour_source
         (svcStoreAfter sampleFreshId 5 ("u1") [candA, candB] [] n) ("u1")
         ([candA, candB].getD n default).date_hour
         ([candA, candB].getD n default).source).isNone)) := by
  have hrun : create_or_update_multiple_miles_records noErr sampleFreshId 5
      ("u1") [candA, candB] [] =
      .ok ([milesApplyUpdate candB 5 (milesNewRecord ("r0") ("u1") candA 5)],
           [milesNewRecord ("r0") ("u1") candA 5,
            milesApplyUpdate candB 5 (milesNewRecord ("r0") ("u1") candA 5)],
           1, 1) := by rfl
  exact ⟨hrun, bulk_counts_and_order sampleFreshId 5 ("u1") [candA, candB]
    [] _ _ 1 1 hrun⟩

theorem svcBulkGo_error_acc (err : Nat → Bool) (freshId : Nat → String)
    (now : Int) (uid : String) (l : List MilesCandidate) :
    ∀ (i : Nat) (db : MilesStore) (ps ps2 : List MilesRecord)
      (c u c2 u2 : Nat) (e : MilesStore),
    svcBulkGo err freshId now uid i db ps c u l = .error e →
    svcBulkGo err freshId now uid i db ps2 c2 u2 l = .error e := by
  induction l with
  | nil => intro i db ps ps2 c u c2 u2 e h; exact absurd h (by simp [svcBulkGo])
  | cons cand rest ih =>
    intro i db ps ps2 c u c2 u2 e h
    simp only [svcBulkGo] at h ⊢
    cases herr : err i with
    | true => simpa [herr] using h
    | false =>
      simp only [herr, Bool.false_eq_true, if_false] at h ⊢
      cases hl : get_miles_data_by_date_hour_source db uid cand.date_hour
          cand.source with
      | some r =>
        simp only [hl] at h ⊢
        exact ih _ _ _ _ _ _ _ _ _ h
      | none =>
        simp only [hl] at h ⊢
        exact ih _ _ _ _ _ _ _ _ _ h

theorem svcBulkGo_shift (err : Nat → Bool) (freshId : Nat → String)
    (now : Int) (uid : String) (l : List MilesCandidate) :
    ∀ (i : Nat) (db : MilesStore) (ps : List MilesRecord) (c u : Nat),
    svcBulkGo err freshId now uid (i + 1) db ps c u l =
      svcBulkGo (fun j => err (j + 1)) (fun j => freshId (j + 1)) now uid i
        db ps c u l := by
  induction l with
  | nil => intro i db ps c u; rfl
  | cons cand rest ih =>
    intro i db ps c u
    simp only [svcBulkGo]
    cases herr : err (i + 1) with
    | true => simp [herr]
    | false =>
      simp only [herr, Bool.false_eq_true, if_false]
      cases hl : get_miles_data_by_date_hour_source db uid cand.date_hour
          cand.source with
      | some r => simp only [hl, ih]
      | none => simp only [hl, ih]

theorem svcBulkGo_first_error (now : Int) (uid : String) :
    ∀ (recs : List MilesCandidate) (err : Nat → Bool)
      (freshId : Nat → String) (db : MilesStore) (k : Nat),
    k < recs.length → (∀ j, j < k → err j = false) → err k = true →
    create_or_update_multiple_miles_records err freshId now uid recs db =
      .error (svcStoreAfter freshId now uid recs db k) := by
  intro recs
  induction recs with
  | nil => intro err freshId db k hk; exact absurd hk (by simp)
  | cons cand rest ih =>
    intro err freshId db k hk hpre hke
    cases k with
    | zero =>
      simp [create_or_update_multiple_miles_records, svcBulkGo, hke,
        svcStoreAfter_zero]
    | succ k' =>
      have h0 : err 0 = false := hpre 0 (Nat.succ_pos k')
      simp only [create_or_update_multiple_miles_records, svcBulkGo, h0,
        Bool.false_eq_true, if_false]
      have hk' : k' < rest.length := by
        simpa [Nat.succ_lt_succ_iff] using hk
      have hpre' : ∀ j, j < k' → err (j + 1) = false := by
        intro j hj
        exact hpre (j + 1) (by omega)
      have hke' : err (k' + 1) = true := hke
      cases hl : get_miles_data_by_date_hour_source db uid cand.date_hour
          cand.source with
      | some r =>
        have ihh := ih (fun j => err (j + 1)) (fun j => freshId (j + 1))
          (replaceFirst (milesHit uid cand.date_hour cand.source)
            (milesApplyUpdate cand now r) db) k' hk' hpre' hke'
        rw [create_or_update_multiple_miles_records] at ihh
        simp only [hl]
        rw [svcBulkGo_shift]
        rw [svcStoreAfter_cons]
        have hstep : svcStepStore (freshId 0) now uid cand db =
            replaceFirst (milesHit uid cand.date_hour cand.source)
              (milesApplyUpdate cand now r) db := by
          simp [svcStepStore, hl]
        rw [hstep]
        exact svcBulkGo_error_acc _ _ _ _ _ _ _ _ _ _ _ _ _ _ ihh
      | none =>
        have ihh := ih (fun j => err (j + 1)) (fun j => freshId (j + 1))
          (db ++ [milesNewRecord (freshId 0) uid cand now]) k' hk' hpre' hke'
        rw [create_or_update_multiple_miles_records] at ihh
        simp only [hl]
        rw [svcBulkGo_shift]
        rw [svcStoreAfter_cons]
        have hstep : svcStepStore (freshId 0) now uid cand db =
            db ++ [milesNewRecord (freshId 0) uid cand now] := by
          simp [svcStepStore, hl]
        rw [hstep]
        exact svcBulkGo_error_acc _ _ _ _ _ _ _ _ _ _ _ _ _ _ ihh

theorem router_error_rollback (err : Nat → Bool) (freshId : Nat → String)
    (now : Int) (uid : String) (recs : List MilesCandidate)
    (db e : MilesStore)
    (h : create_or_update_multiple_activity_miles_records err freshId now uid
      recs db = .error e) : e = db := by
  unfold create_or_update_multiple_activity_miles_records at h
  cases hr : routerGo err freshId now uid 0 db [] [] 0 0 recs with
  | error v =>
    rw [hr] at h
    injection h with h
    exact h.symm
  | ok out =>
    rw [hr] at h
    obtain ⟨sess, pend, ps, c, u⟩ := out
    simp only at h
    split at h
    · cases h
    · injection h with h
      exact h.symm

/-- Counterexample to C1: running the service bulk upsert on a three
candidate batch whose third candidate raises a storage error leaves the
first two candidates' rows committed and visible — the resulting store is
not the untouched empty store the all-or-nothing claim requires. -/
theorem service_bulk_partial_commit_cex :
    create_or_update_multiple_miles_records (fun i => i == 2) sampleFreshId 5
      ("u1") [candA, candD, candC] [] =
      .error [milesNewRecord ("r0") ("u1") candA 5,
              milesNewRecord ("r1") ("u1") candD 5] ∧
    [milesNewRecord ("r0") ("u1") candA 5,
     milesNewRecord ("r1") ("u1") candD 5] ≠ ([] : MilesStore) := by
  exact ⟨by rfl, by simp⟩

/-- C1 as amended: the two bulk-upsert paths differ. The service path
(`MetricsService.create_or_update_multiple_miles_records`) commits every
candidate individually, so a storage error first raised while processing
candidate `k` aborts the batch with the writes of candidates `0..k-1`
already durable — the error state is exactly the store after the `k`-prefix
run — and no counts are reported. Only the router path
(`POST /miles/bulk`), which buffers all writes and commits once, is
all-or-nothing: any failure there leaves the store unchanged. -/
theorem service_bulk_failure_semantics :
    (∀ (err : Nat → Bool) (freshId : Nat → String) (now : Int) (uid : String)
        (recs : List MilesCandidate) (db : MilesStore) (k : Nat),
      k < recs.length → (∀ j, j < k → err j = false) → err k = true →
      create_or_update_multiple_miles_records err freshId now uid recs db =
        .error (svcStoreAfter freshId now uid recs db k)) ∧
    (∀ (err : Nat → Bool) (freshId : Nat → String) (now : Int) (uid : String)
        (recs : List MilesCandidate) (db e : MilesStore),
      create_or_update_multiple_activity_miles_records err freshId now uid
        recs db = .error e → e = db) :=
  ⟨fun err freshId now uid recs db k hk hpre hke =>
    svcBulkGo_first_error now uid recs err freshId db k hk hpre hke,
   fun err freshId now uid recs db e h =>
    router_error_rollback err freshId now uid recs db e h⟩

/-- Witness for the amended C1: the error at index 2 aborts with the
two-candidate prefix store, and a router failure hands back the original
store. -/
theorem service_bulk_failure_semantics_witness :
    (2 < [candA, candD, candC].length ∧
      (∀ j, j < 2 → (fun i : Nat => i == 2) j = false) ∧
      (fun i : Nat => i == 2) 2 = true) ∧
    create_or_update_multiple_miles_records (fun i => i == 2) sampleFreshId 5
      ("u1") [candA, candD, candC] [] =
      .error (svcStoreAfter sampleFreshId 5 ("u1") [candA, candD, candC]
        [] 2) ∧
    (create_or_update_multiple_activity_miles_records (fun i => i == 0)
        sampleFreshId 5 ("u1") [candA] [sampleOtherUserRecord] =
      .error [sampleOtherUserRecord] →
      ([sampleOtherUserRecord] : MilesStore) = [sampleOtherUserRecord]) :=
  ⟨⟨by decide, by decide, rfl⟩,
   service_bulk_failure_semantics.1 (fun i => i == 2) sampleFreshId 5 ("u1")
     [candA, candD, candC] [] 2 (by decide) (by decide) rfl,
   fun h => service_bulk_failure_semantics.2 (fun i => i == 0) sampleFreshId
     5 ("u1") [candA] [sampleOtherUserRecord] [sampleOtherUserRecord] h⟩

theorem map_replaceFirst_eq {α β : Type} (f : α → β) (p : α → Bool) (x : α) :
    ∀ (l : List α), (∀ a ∈ l, p a = true → f x = f a) →
    (replaceFirst p x l).map f = l.map f := by
  intro l
  induction l with
  | nil => intro h; rfl
  | cons a as ih =>
    intro h
    cases hpa : p a with
    | true =>
      simp only [replaceFirst, hpa, if_true, List.map_cons]
      rw [h a (List.mem_cons_self a as) hpa]
    | false =>
      simp only [replaceFirst, hpa, Bool.false_eq_true, if_false,
        List.map_cons]
      rw [ih (fun b hb hpb => h b (List.mem_cons_of_mem _ hb) hpb)]

theorem milesKey_eq_candKey_iff (uid : String) (cand : MilesCandidate)
    (a : MilesRecord) :
    milesKey a = candKey uid cand ↔
      milesHit uid cand.date_hour cand.source a = true := by
  simp [milesKey, candKey, milesHit, and_assoc, Prod.ext_iff]

theorem replaceFirst_key_preserving (uid : String) (dh : Int) (src : String)
    (c : MilesCandidate) (now : Int) (r : MilesRecord) (db : MilesStore)
    (hf : db.find? (milesHit uid dh src) = some r) :
    (replaceFirst (milesHit uid dh src) (milesApplyUpdate c now r) db).map
      milesKey = db.map milesKey := by
  apply map_replaceFirst_eq
  intro a _ hpa
  have hra : milesKey r = milesKey a := by
    have h1 := (milesHit_true_iff uid dh src r).mp (List.find?_some hf)
    have h2 := (milesHit_true_iff uid dh src a).mp hpa
    simp [milesKey, h1.1, h1.2.1, h1.2.2, h2.1, h2.2.1, h2.2.2]
  rw [milesKey_milesApplyUpdate, hra]

theorem keyUnique_append_new (uid : String) (cand : MilesCandidate)
    (rid : String) (now : Int) (db : MilesStore) (hdb : keyUnique db)
    (hf : db.find? (milesHit uid cand.date_hour cand.source) = none) :
    keyUnique (db ++ [milesNewRecord rid uid cand now]) := by
  unfold keyUnique at hdb ⊢
  rw [List.map_append, List.nodup_append]
  refine ⟨hdb, by simp, ?_⟩
  intro k hk
  simp only [List.map_cons, List.map_nil, List.mem_singleton,
    milesKey_milesNewRecord]
  intro hkk
  obtain ⟨a, ha, hak⟩ := List.mem_map.mp hk
  rw [List.find?_eq_none] at hf
  apply hf a ha
  rw [← milesKey_eq_candKey_iff uid cand a]
  rw [hak]
  exact hkk

theorem svcBulkGo_keyUnique (err : Nat → Bool) (freshId : Nat → String)
    (now : Int) (uid : String) (l : List MilesCandidate) :
    ∀ (i : Nat) (db : MilesStore) (ps : List MilesRecord) (c u : Nat),
    keyUnique db →
    (∀ db' ps' c' u',
      svcBulkGo err freshId now uid i db ps c u l = .ok (db', ps', c', u') →
      keyUnique db') ∧
    (∀ e, svcBulkGo err freshId now uid i db ps c u l = .error e →
      keyUnique e) := by
  induction l with
  | nil =>
    intro i db ps c u hdb
    constructor
    · intro db' ps' c' u' h
      simp only [svcBulkGo, Except.ok.injEq, Prod.mk.injEq] at h
      exact h.1 ▸ hdb
    · intro e h
      exact absurd h (by simp [svcBulkGo])
  | cons cand rest ih =>
    intro i db ps c u hdb
    cases herr : err i with
    | true =>
      constructor
      · intro db' ps' c' u' h
        simp [svcBulkGo, herr] at h
      · intro e h
        simp only [svcBulkGo, herr, if_true] at h
        injection h with h
        exact h ▸ hdb
    | false =>
      cases hl : get_miles_data_by_date_hour_source db uid cand.date_hour
          cand.source with
      | some r =>
        have hl' : db.find? (milesHit uid cand.date_hour cand.source) =
            some r := hl
        have hdb1 : keyUnique (replaceFirst
            (milesHit uid cand.date_hour cand.source)
            (milesApplyUpdate cand now r) db) := by
          unfold keyUnique
          rw [replaceFirst_key_preserving uid cand.date_hour cand.source
            cand now r db hl']
          exact hdb
        have ihh := ih (i + 1) _ (ps ++ [milesApplyUpdate cand now r]) c
          (u + 1) hdb1
        constructor
        · intro db' ps' c' u' h
          simp only [svcBulkGo, herr, Bool.false_eq_true, if_false, hl] at h
          exact ihh.1 db' ps' c' u' h
        · intro e h
          simp only [svcBulkGo, herr, Bool.false_eq_true, if_false, hl] at h
          exact ihh.2 e h
      | none =>
        have hl' : db.find? (milesHit uid cand.date_hour cand.source) =
            none := hl
        have hdb1 : keyUnique
            (db ++ [milesNewRecord (freshId i) uid cand now]) :=
          keyUnique_append_new uid cand (freshId i) now db hdb hl'
        have ihh := ih (i + 1) _
          (ps ++ [milesNewRecord (freshId i) uid cand now]) (c + 1) u hdb1
        constructor
        · intro db' ps' c' u' h
          simp only [svcBulkGo, herr, Bool.false_eq_true, if_false, hl] at h
          exact ihh.1 db' ps' c' u' h
        · intro e h
          simp only [svcBulkGo, herr, Bool.false_eq_true, if_false, hl] at h
          exact ihh.2 e h

theorem routerGo_sess_keys (err : Nat → Bool) (freshId : Nat → String)
    (now : Int) (uid : String) (l : List MilesCandidate) :
    ∀ (i : Nat) (sess pend : MilesStore) (ps : List MilesRecord) (c u : Nat)
      (sess' pend' : MilesStore) (ps' : List MilesRecord) (c' u' : Nat),
    routerGo err freshId now uid i sess pend ps c u l =
      .ok (sess', pend', ps', c', u') →
    sess'.map milesKey = sess.map milesKey := by
  induction l with
  | nil =>
    intro i sess pend ps c u sess' pend' ps' c' u' h
    simp only [routerGo, Except.ok.injEq, Prod.mk.injEq] at h
    rw [← h.1]
  | cons cand rest ih =>
    intro i sess pend ps c u sess' pend' ps' c' u' h
    cases herr : err i with
    | true => simp [routerGo, herr] at h
    | false =>
      cases hl : get_miles_data_by_date_hour_source sess uid cand.date_hour
          cand.source with
      | some r =>
        have hl' : sess.find? (milesHit uid cand.date_hour cand.source) =
            some r := hl
        simp only [routerGo, herr, Bool.false_eq_true, if_false, hl] at h
        rw [ih _ _ _ _ _ _ _ _ _ _ _ h]
        exact replaceFirst_key_preserving uid cand.date_hour cand.source
          cand now r sess hl'
      | none =>
        simp only [routerGo, herr, Bool.false_eq_true, if_false, hl] at h
        exact ih _ _ _ _ _ _ _ _ _ _ _ h

theorem router_ok_keyUnique (err : Nat → Bool) (freshId : Nat → String)
    (now : Int) (uid : String) (recs : List MilesCandidate)
    (db db' : MilesStore) (ps : List MilesRecord) (c u : Nat)
    (hdb : keyUnique db)
    (h : create_or_update_multiple_activity_miles_records err freshId now uid
      recs db = .ok (db', ps, c, u)) : keyUnique db' := by
  unfold create_or_update_multiple_activity_miles_records at h
  cases hr : routerGo err freshId now uid 0 db [] [] 0 0 recs with
  | error v => rw [hr] at h; cases h
  | ok out =>
    obtain ⟨sess, pend, ps0, c0, u0⟩ := out
    rw [hr] at h
    simp only at h
    by_cases hcond : (pend.map milesKey).Nodup ∧
        ∀ p ∈ pend, ∀ s ∈ sess, milesKey p ≠ milesKey s
    · rw [if_pos hcond] at h
      injection h with h
      injection h with h1 h2
      rw [← h1]
      unfold keyUnique
      rw [List.map_append, List.nodup_append]
      refine ⟨?_, hcond.1, ?_⟩
      · rw [routerGo_sess_keys err freshId now uid recs 0 db [] [] 0 0
          sess pend ps0 c0 u0 hr]
        exact hdb
      · intro k hk1 hk2
        obtain ⟨s, hs, hsk⟩ := List.mem_map.mp hk1
        obtain ⟨p, hp, hpk⟩ := List.mem_map.mp hk2
        exact hcond.2 p hp s hs (by rw [hpk, hsk])
    · rw [if_neg hcond] at h
      cases h

theorem replaceFirst_append_of_none {α : Type} {p : α → Bool} {x : α}
    {l1 : List α} (l2 : List α) (h : l1.find? p = none) :
    replaceFirst p x (l1 ++ l2) = l1 ++ replaceFirst p x l2 := by
  induction l1 with
  | nil => rfl
  | cons a as ih =>
    rw [List.find?_eq_none] at h
    have hpa : p a = false := by
      have := h a (List.mem_cons_self a as)
      simpa using this
    rw [List.cons_append]
    simp only [replaceFirst, hpa, Bool.false_eq_true, if_false,
      List.cons_append, List.cons.injEq]
    refine ⟨trivial, ih ?_⟩
    rw [List.find?_eq_none]
    intro b hb
    exact h b (List.mem_cons_of_mem _ hb)

/-- Counterexample to C4's mechanism: in the live bulk endpoint two
candidates sharing a fresh natural key do not become one create followed by
a merge. The pending insert is invisible to the second lookup
(`autoflush=False`), both candidates insert, and the unique constraint
aborts the whole batch at commit, handing back the untouched (empty)
store. -/
theorem router_same_key_batch_cex :
    create_or_update_multiple_activity_miles_records noErr sampleFreshId 5
      ("u1") [candA, candA] [] = .error [] := by rfl

/-- C4 as amended: the at-most-one-row-per-`(owner, timestamp, source)`
invariant is preserved by both bulk-upsert paths, on success and on failure.
The claim's mechanism — a lookup before every write making two same-key
candidates in one batch one create followed by merges — holds only for the
service path (each write commits before the next lookup); in the router
path a pending create is invisible to the following lookups, so two
same-key candidates over a fresh key both insert and the unique constraint
aborts the batch (no record is ever duplicated, but none is created
either). -/
theorem natural_key_uniqueness :
    (∀ (err : Nat → Bool) (freshId : Nat → String) (now : Int) (uid : String)
        (recs : List MilesCandidate) (db db' : MilesStore)
        (ps : List MilesRecord) (c u : Nat), keyUnique db →
      create_or_update_multiple_miles_records err freshId now uid recs db =
        .ok (db', ps, c, u) → keyUnique db') ∧
    (∀ (err : Nat → Bool) (freshId : Nat → String) (now : Int) (uid : String)
        (recs : List MilesCandidate) (db e : MilesStore), keyUnique db →
      create_or_update_multiple_miles_records err freshId now uid recs db =
        .error e → keyUnique e) ∧
    (∀ (freshId : Nat → String) (now : Int) (uid : String)
        (cand : MilesCandidate) (db : MilesStore),
      get_miles_data_by_date_hour_source db uid cand.date_hour cand.source =
        none →
      create_or_update_multiple_miles_records noErr freshId now uid
        [cand, cand] db =
        .ok (db ++ [milesApplyUpdate cand now
              (milesNewRecord (freshId 0) uid cand now)],
             [milesNewRecord (freshId 0) uid cand now,
              milesApplyUpdate cand now
                (milesNewRecord (freshId 0) uid cand now)], 1, 1)) ∧
    (∀ (err : Nat → Bool) (freshId : Nat → String) (now : Int) (uid : String)
        (recs : List MilesCandidate) (db db' : MilesStore)
        (ps : List MilesRecord) (c u : Nat), keyUnique db →
      create_or_update_multiple_activity_miles_records err freshId now uid
        recs db = .ok (db', ps, c, u) → keyUnique db') ∧
    (∀ (err : Nat → Bool) (freshId : Nat → String) (now : Int) (uid : String)
        (recs : List MilesCandidate) (db e : MilesStore), keyUnique db →
      create_or_update_multiple_activity_miles_records err freshId now uid
        recs db = .error e → keyUnique e) ∧
    (∀ (freshId : Nat → String) (now : Int) (uid : String)
        (a b : MilesCandidate) (db : MilesStore),
      candKey uid a = candKey uid b →
      get_miles_data_by_date_hour_source db uid a.date_hour a.source = none →
      create_or_update_multiple_activity_miles_records noErr freshId now uid
        [a, b] db = .error db) := by
  refine ⟨?_, ?_, ?_, ?_, ?_, ?_⟩
  · intro err freshId now uid recs db db' ps c u hdb h
    exact (svcBulkGo_keyUnique err freshId now uid recs 0 db [] 0 0 hdb).1
      db' ps c u h
  · intro err freshId now uid recs db e hdb h
    exact (svcBulkGo_keyUnique err freshId now uid recs 0 db [] 0 0 hdb).2
      e h
  · intro freshId now uid cand db hl
    have hl' : db.find? (milesHit uid cand.date_hour cand.source) =
        none := hl
    have h2 : get_miles_data_by_date_hour_source
        (db ++ [milesNewRecord (freshId 0) uid cand now]) uid
        cand.date_hour cand.source =
        some (milesNewRecord (freshId 0) uid cand now) := by
      unfold get_miles_data_by_date_hour_source
      rw [find?_append_of_none hl']
      simp [List.find?_cons_of_pos, milesHit_milesNewRecord]
    simp only [create_or_update_multiple_miles_records, svcBulkGo, noErr,
      Bool.false_eq_true, if_false, hl, h2]
    rw [replaceFirst_append_of_none _ hl']
    simp [replaceFirst, milesHit_milesNewRecord]
  · intro err freshId now uid recs db db' ps c u hdb h
    exact router_ok_keyUnique err freshId now uid recs db db' ps c u hdb h
  · intro err freshId now uid recs db e hdb h
    rw [router_error_rollback err freshId now uid recs db e h]
    exact hdb
  · intro freshId now uid a b db hk hl
    have hpair : a.date_hour = b.date_hour ∧ a.source = b.source := by
      simpa [candKey, Prod.ext_iff] using hk
    have hlb : get_miles_data_by_date_hour_source db uid b.date_hour
        b.source = none := by
      rw [← hpair.1, ← hpair.2]
      exact hl
    unfold create_or_update_multiple_activity_miles_records
    simp only [routerGo, noErr, Bool.false_eq_true, if_false, hl, hlb]
    rw [if_neg]
    rintro ⟨hnd, -⟩
    simp [milesKey_milesNewRecord, hk] at hnd

/-- Witness for the amended C4: over an empty store the service path turns
the duplicated candidate A into one create plus one merge, while the router
path aborts the batch. -/
theorem natural_key_uniqueness_witness :
    (get_miles_data_by_date_hour_source [] ("u1") candA.date_hour
      candA.source = none) ∧
    create_or_update_multiple_miles_records noErr sampleFreshId 5 ("u1")
      [candA, candA] [] =
      .ok ([] ++ [milesApplyUpdate candA 5
            (milesNewRecord (sampleFreshId 0) ("u1") candA 5)],
           [milesNewRecord (sampleFreshId 0) ("u1") candA 5,
            milesApplyUpdate candA 5
              (milesNewRecord (sampleFreshId 0) ("u1") candA 5)], 1, 1) ∧
    create_or_update_multiple_activity_miles_records noErr sampleFreshId 5
      ("u1") [candA, candA] [] = .error [] :=
  ⟨rfl,
   natural_key_uniqueness.2.2.1 sampleFreshId 5 ("u1") candA [] rfl,
   natural_key_uniqueness.2.2.2.2.2 sampleFreshId 5 ("u1") candA candA []
     rfl rfl⟩

theorem milesHit_stripUpd (uid : String) (dh : Int) (src : String)
    (a : MilesRecord) :
    milesHit uid dh src (stripUpd a) = milesHit uid dh src a := rfl

theorem milesHit_congr_strip (uid : String) (dh : Int) (src : String)
    {a b : MilesRecord} (h : stripUpd a = stripUpd b) :
    milesHit uid dh src a = milesHit uid dh src b := by
  rw [← milesHit_stripUpd uid dh src a, ← milesHit_stripUpd uid dh src b, h]

theorem stripUpd_milesApplyUpdate_congr (c : MilesCandidate) (now : Int)
    {rA rB : MilesRecord} (h : stripUpd rA = stripUpd rB) :
    stripUpd (milesApplyUpdate c now rA) =
      stripUpd (milesApplyUpdate c now rB) := by
  cases rA
  cases rB
  simp only [stripUpd, MilesRecord.mk.injEq] at h
  obtain ⟨e1, e2, e3, e4, e5, e6, e7, -⟩ := h
  subst e1; subst e2; subst e3; subst e4; subst e5; subst e6; subst e7
  cases hm : c.miles <;> cases hat : c.activity_type <;>
    simp [milesApplyUpdate, stripUpd, hm, hat]

theorem stripUpd_milesApplyUpdate_self (c : MilesCandidate) (t1 t2 : Int)
    (r : MilesRecord) :
    stripUpd (milesApplyUpdate c t2 (milesApplyUpdate c t1 r)) =
      stripUpd (milesApplyUpdate c t1 r) := by
  cases hm : c.miles <;> cases hat : c.activity_type <;>
    simp [milesApplyUpdate, stripUpd, hm, hat]

theorem stripUpd_milesApplyUpdate_new (c : MilesCandidate) (t1 t2 : Int)
    (rid uid : String) :
    stripUpd (milesApplyUpdate c t2 (milesNewRecord rid uid c t1)) =
      stripUpd (milesNewRecord rid uid c t1) := by
  cases hm : c.miles <;> cases hat : c.activity_type <;>
    simp [milesApplyUpdate, milesNewRecord, stripUpd, hm, hat]

theorem find?_strip_congr (uid : String) (dh : Int) (src : String) :
    ∀ {dbA dbB : MilesStore}, dbA.map stripUpd = dbB.map stripUpd →
    (dbA.find? (milesHit uid dh src)).map stripUpd =
      (dbB.find? (milesHit uid dh src)).map stripUpd := by
  intro dbA
  induction dbA with
  | nil =>
    intro dbB h
    cases dbB with
    | nil => rfl
    | cons b bs => simp at h
  | cons a as ih =>
    intro dbB h
    cases dbB with
    | nil => simp at h
    | cons b bs =>
      simp only [List.map_cons, List.cons.injEq] at h
      obtain ⟨hab, hrest⟩ := h
      have hhit := milesHit_congr_strip uid dh src hab
      cases hb : milesHit uid dh src b with
      | true =>
        rw [List.find?_cons_of_pos _ (hhit.trans hb),
          List.find?_cons_of_pos _ hb]
        simpa using hab
      | false =>
        rw [List.find?_cons_of_neg _ (by simp [hhit, hb]),
          List.find?_cons_of_neg _ (by simp [hb])]
        exact ih hrest

theorem map_replaceFirst_strip_congr (uid : String) (dh : Int)
    (src : String) :
    ∀ {dbA dbB : MilesStore} {x y : MilesRecord},
    dbA.map stripUpd = dbB.map stripUpd → stripUpd x = stripUpd y →
    (replaceFirst (milesHit uid dh src) x dbA).map stripUpd =
      (replaceFirst (milesHit uid dh src) y dbB).map stripUpd := by
  intro dbA
  induction dbA with
  | nil =>
    intro dbB x y h hxy
    cases dbB with
    | nil => rfl
    | cons b bs => simp at h
  | cons a as ih =>
    intro dbB x y h hxy
    cases dbB with
    | nil => simp at h
    | cons b bs =>
      simp only [List.map_cons, List.cons.injEq] at h
      obtain ⟨hab, hrest⟩ := h
      have hhit := milesHit_congr_strip uid dh src hab
      cases hb : milesHit uid dh src b with
      | true =>
        simp only [replaceFirst, hhit.trans hb, hb, if_true, List.map_cons]
        rw [hxy, hrest]
      | false =>
        simp only [replaceFirst, hhit.trans hb, hb, Bool.false_eq_true,
          if_false, List.map_cons]
        rw [hab, ih hrest hxy]

theorem map_replaceFirst_strip_found {p : MilesRecord → Bool}
    {x r : MilesRecord} :
    ∀ {l : MilesStore}, l.find? p = some r → stripUpd x = stripUpd r →
    (replaceFirst p x l).map stripUpd = l.map stripUpd := by
  intro l
  induction l with
  | nil => intro h; simp at h
  | cons a as ih =>
    intro h hxr
    cases ha : p a with
    | true =>
      rw [List.find?_cons_of_pos _ ha] at h
      injection h with h
      simp only [replaceFirst, ha, if_true, List.map_cons]
      rw [hxr, h]
    | false =>
      rw [List.find?_cons_of_neg _ (by simp [ha])] at h
      simp only [replaceFirst, ha, Bool.false_eq_true, if_false,
        List.map_cons]
      rw [ih h hxr]

theorem find?_replaceFirst_other {α : Type} {p q : α → Bool} {x : α}
    (hq : ∀ a, p a = true → q a = false) (hx : q x = false) :
    ∀ (l : List α), (replaceFirst p x l).find? q = l.find? q := by
  intro l
  induction l with
  | nil => rfl
  | cons a as ih =>
    cases ha : p a with
    | true =>
      simp only [replaceFirst, ha, if_true]
      rw [List.find?_cons_of_neg _ (by simp [hx]),
        List.find?_cons_of_neg _ (by simp [hq a ha])]
    | false =>
      simp only [replaceFirst, ha, Bool.false_eq_true, if_false]
      cases hqa : q a with
      | true =>
        rw [List.find?_cons_of_pos _ hqa, List.find?_cons_of_pos _ hqa]
      | false =>
        rw [List.find?_cons_of_neg _ (by simp [hqa]),
          List.find?_cons_of_neg _ (by simp [hqa])]
        exact ih

theorem find?_append_of_some {α : Type} {p : α → Bool} {l1 : List α}
    {a : α} (l2 : List α) (h : l1.find? p = some a) :
    (l1 ++ l2).find? p = some a := by
  induction l1 with
  | nil => simp at h
  | cons b bs ih =>
    cases hb : p b with
    | true =>
      rw [List.find?_cons_of_pos _ hb] at h
      rw [List.cons_append, List.find?_cons_of_pos _ hb]
      exact h
    | false =>
      rw [List.find?_cons_of_neg _ (by simp [hb])] at h
      rw [List.cons_append, List.find?_cons_of_neg _ (by simp [hb])]
      exact ih h

theorem svcRun_lookup_untouched (now : Int) (uid : String) (dh : Int)
    (src : String) :
    ∀ (l : List MilesCandidate) (freshId : Nat → String) (i : Nat)
      (db : MilesStore),
    (∀ cand ∈ l, ¬(cand.date_hour = dh ∧ cand.source = src)) →
    get_miles_data_by_date_hour_source (svcRun freshId now uid i db l).1 uid
      dh src = get_miles_data_by_date_hour_source db uid dh src := by
  intro l
  induction l with
  | nil => intro freshId i db h; rfl
  | cons cand rest ih =>
    intro freshId i db h
    have hcand : ¬(cand.date_hour = dh ∧ cand.source = src) :=
      h cand (List.mem_cons_self _ _)
    have hq : ∀ a : MilesRecord,
        milesHit uid cand.date_hour cand.source a = true →
        milesHit uid dh src a = false := by
      intro a ha
      have h1 := (milesHit_true_iff _ _ _ _).mp ha
      cases hqa : milesHit uid dh src a with
      | false => rfl
      | true =>
        have h2 := (milesHit_true_iff _ _ _ _).mp hqa
        exact absurd ⟨h1.2.1.symm.trans h2.2.1, h1.2.2.symm.trans h2.2.2⟩
          hcand
    simp only [svcRun]
    cases hl : get_miles_data_by_date_hour_source db uid cand.date_hour
        cand.source with
    | some r =>
      simp only [hl]
      rw [ih _ _ _ (fun b hb => h b (List.mem_cons_of_mem _ hb))]
      show (replaceFirst (milesHit uid cand.date_hour cand.source)
        (milesApplyUpdate cand now r) db).find? (milesHit uid dh src) =
        db.find? (milesHit uid dh src)
      apply find?_replaceFirst_other hq
      rw [milesHit_milesApplyUpdate]
      exact hq r (List.find?_some hl)
    | none =>
      simp only [hl]
      rw [ih _ _ _ (fun b hb => h b (List.mem_cons_of_mem _ hb))]
      show (db ++ [milesNewRecord (freshId i) uid cand now]).find?
        (milesHit uid dh src) = db.find? (milesHit uid dh src)
      have hnr : milesHit uid dh src
          (milesNewRecord (freshId i) uid cand now) = false :=
        hq _ (milesHit_milesNewRecord _ _ _ _)
      cases hdb : db.find? (milesHit uid dh src) with
      | some a => exact find?_append_of_some _ hdb
      | none =>
        rw [find?_append_of_none hdb]
        rw [List.find?_cons_of_neg _ (by simp [hnr])]
        rfl

theorem svcRun_congr (now : Int) (uid : String) :
    ∀ (l : List MilesCandidate) (freshId : Nat → String) (i : Nat)
      {dbA dbB : MilesStore}, dbA.map stripUpd = dbB.map stripUpd →
    (svcRun freshId now uid i dbA l).1.map stripUpd =
      (svcRun freshId now uid i dbB l).1.map stripUpd ∧
    (svcRun freshId now uid i dbA l).2.1.map stripUpd =
      (svcRun freshId now uid i dbB l).2.1.map stripUpd ∧
    (svcRun freshId now uid i dbA l).2.2.1 =
      (svcRun freshId now uid i dbB l).2.2.1 ∧
    (svcRun freshId now uid i dbA l).2.2.2 =
      (svcRun freshId now uid i dbB l).2.2.2 := by
  intro l
  induction l with
  | nil => intro freshId i dbA dbB h; exact ⟨h, rfl, rfl, rfl⟩
  | cons cand rest ih =>
    intro freshId i dbA dbB h
    have hf := find?_strip_congr uid cand.date_hour cand.source h
    simp only [svcRun]
    cases hA : get_miles_data_by_date_hour_source dbA uid cand.date_hour
        cand.source with
    | some rA =>
      cases hB : get_miles_data_by_date_hour_source dbB uid cand.date_hour
          cand.source with
      | none =>
        have hA' : dbA.find? (milesHit uid cand.date_hour cand.source) =
            some rA := hA
        have hB' : dbB.find? (milesHit uid cand.date_hour cand.source) =
            none := hB
        rw [hA', hB'] at hf
        simp at hf
      | some rB =>
        have hA' : dbA.find? (milesHit uid cand.date_hour cand.source) =
            some rA := hA
        have hB' : dbB.find? (milesHit uid cand.date_hour cand.source) =
            some rB := hB
        rw [hA', hB'] at hf
        simp only [Option.map_some'] at hf
        injection hf with hf
        have hupd := stripUpd_milesApplyUpdate_congr cand now hf
        have hstores := map_replaceFirst_strip_congr uid cand.date_hour
          cand.source h hupd
        simp only [hA, hB]
        obtain ⟨c1, c2, c3, c4⟩ := ih freshId (i + 1) hstores
        refine ⟨c1, ?_, c3, by rw [c4]⟩
        simp only [List.map_cons, c2, hupd]
    | none =>
      cases hB : get_miles_data_by_date_hour_source dbB uid cand.date_hour
          cand.source with
      | some rB =>
        have hA' : dbA.find? (milesHit uid cand.date_hour cand.source) =
            none := hA
        have hB' : dbB.find? (milesHit uid cand.date_hour cand.source) =
            some rB := hB
        rw [hA', hB'] at hf
        simp at hf
      | none =>
        simp only [hA, hB]
        have hstores : (dbA ++ [milesNewRecord (freshId i) uid cand now]).map
            stripUpd =
            (dbB ++ [milesNewRecord (freshId i) uid cand now]).map
              stripUpd := by
          simp [h]
        obtain ⟨c1, c2, c3, c4⟩ := ih freshId (i + 1) hstores
        exact ⟨c1, by simp only [List.map_cons, c2], by rw [c3], c4⟩

theorem milesApplyUpdate_core (c : MilesCandidate) (now : Int)
    (r : MilesRecord) :
    (milesApplyUpdate c now r).id = r.id ∧
    (milesApplyUpdate c now r).created_at = r.created_at := by
  cases hm : c.miles <;> cases hat : c.activity_type <;>
    simp [milesApplyUpdate, hm, hat]

theorem milesApplyUpdate_miles_none {c : MilesCandidate} (now : Int)
    (r : MilesRecord) (h : c.miles = none) :
    (milesApplyUpdate c now r).miles = r.miles := by
  cases hat : c.activity_type <;> simp [milesApplyUpdate, h, hat]

theorem milesApplyUpdate_miles_some {c : MilesCandidate} {v : ℚ} (now : Int)
    (r : MilesRecord) (h : c.miles = some v) :
    (milesApplyUpdate c now r).miles = some v := by
  cases hat : c.activity_type <;> simp [milesApplyUpdate, h, hat]

theorem milesApplyUpdate_activity_none {c : MilesCandidate} (now : Int)
    (r : MilesRecord) (h : c.activity_type = none) :
    (milesApplyUpdate c now r).activity_type = r.activity_type := by
  cases hm : c.miles <;> simp [milesApplyUpdate, h, hm]

theorem milesApplyUpdate_activity_some {c : MilesCandidate} {v : String}
    (now : Int) (r : MilesRecord) (h : c.activity_type = some v) :
    (milesApplyUpdate c now r).activity_type = some v := by
  cases hm : c.miles <;> simp [milesApplyUpdate, h, hm]

theorem milesHit_disjoint (uid : String) {dh1 dh2 : Int} {src1 src2 : String}
    (hne : ¬(dh1 = dh2 ∧ src1 = src2)) (a : MilesRecord)
    (h1 : milesHit uid dh1 src1 a = true) :
    milesHit uid dh2 src2 a = false := by
  cases h2 : milesHit uid dh2 src2 a with
  | false => rfl
  | true =>
    obtain ⟨-, e1, e2⟩ := (milesHit_true_iff uid dh1 src1 a).mp h1
    obtain ⟨-, f1, f2⟩ := (milesHit_true_iff uid dh2 src2 a).mp h2
    exact absurd ⟨e1.symm.trans f1, e2.symm.trans f2⟩ hne

theorem replaceFirst_replaceFirst {α : Type} {p : α → Bool} {x : α}
    (y : α) (hx : p x = true) :
    ∀ (l : List α),
    replaceFirst p y (replaceFirst p x l) = replaceFirst p y l := by
  intro l
  induction l with
  | nil => rfl
  | cons a as ih =>
    cases ha : p a with
    | true => simp [replaceFirst, ha, hx]
    | false =>
      simp only [replaceFirst, ha, Bool.false_eq_true, if_false]
      rw [ih]

theorem replaceFirst_comm_disjoint {α : Type} {p q : α → Bool} {x y : α}
    (hpq : ∀ a, p a = true → q a = false) (hqx : q x = false)
    (hpy : p y = false) :
    ∀ (l : List α),
    replaceFirst q y (replaceFirst p x l) =
      replaceFirst p x (replaceFirst q y l) := by
  intro l
  induction l with
  | nil => rfl
  | cons a as ih =>
    cases ha : p a with
    | true =>
      have hqa : q a = false := hpq a ha
      simp [replaceFirst, ha, hqa, hqx]
    | false =>
      cases hqa : q a with
      | true => simp [replaceFirst, ha, hqa, hpy]
      | false =>
        simp only [replaceFirst, ha, hqa, Bool.false_eq_true, if_false]
        rw [ih]

theorem replaceFirst_append_left {α : Type} {p : α → Bool} {x : α}
    {l1 : List α} {r : α} (l2 : List α) (h : l1.find? p = some r) :
    replaceFirst p x (l1 ++ l2) = replaceFirst p x l1 ++ l2 := by
  induction l1 with
  | nil => simp at h
  | cons a as ih =>
    cases ha : p a with
    | true => simp [replaceFirst, ha]
    | false =>
      rw [List.find?_cons_of_neg _ (by simp [ha])] at h
      simp only [List.cons_append, replaceFirst, ha, Bool.false_eq_true,
        if_false, List.cons.injEq, true_and]
      exact ih h

theorem stripUpd_ext {x r : MilesRecord} (h1 : x.id = r.id)
    (h2 : x.user_id = r.user_id) (h3 : x.date_hour = r.date_hour)
    (h4 : x.source = r.source) (h5 : x.created_at = r.created_at)
    (h6 : x.miles = r.miles) (h7 : x.activity_type = r.activity_type) :
    stripUpd x = stripUpd r := by
  cases x
  cases r
  simp_all [stripUpd]

theorem find?_isSome_key (db : MilesStore) (uid : String) (dh : Int)
    (src : String) :
    (db.find? (milesHit uid dh src)).isSome ↔
      (uid, dh, src) ∈ db.map milesKey := by
  rw [List.find?_isSome, List.mem_map]
  constructor
  · rintro ⟨r, hr, hp⟩
    obtain ⟨e1, e2, e3⟩ := (milesHit_true_iff uid dh src r).mp hp
    exact ⟨r, hr, by simp [milesKey, e1, e2, e3]⟩
  · rintro ⟨r, hr, hk⟩
    refine ⟨r, hr, (milesHit_true_iff uid dh src r).mpr ?_⟩
    simp only [milesKey, Prod.mk.injEq] at hk
    exact ⟨hk.1, hk.2.1, hk.2.2⟩


theorem svcRun_keys_mono (now : Int) (uid : String)
    {k : String × Int × String} :
    ∀ (l : List MilesCandidate) (freshId : Nat → String) (i : Nat)
      (db : MilesStore), k ∈ db.map milesKey →
    k ∈ (svcRun freshId now uid i db l).1.map milesKey := by
  intro l
  induction l with
  | nil => intro freshId i db h; exact h
  | cons cand rest ih =>
    intro freshId i db h
    simp only [svcRun]
    cases hl : get_miles_data_by_date_hour_source db uid cand.date_hour
        cand.source with
    | some r =>
      have hl' : db.find? (milesHit uid cand.date_hour cand.source) =
          some r := hl
      simp only [hl]
      apply ih
      rw [replaceFirst_key_preserving uid cand.date_hour cand.source cand
        now r db hl']
      exact h
    | none =>
      simp only [hl]
      apply ih
      rw [List.map_append]
      exact List.mem_append_left _ h

theorem svcRun_ensures_keys (now : Int) (uid : String) :
    ∀ (l : List MilesCandidate) (freshId : Nat → String) (i : Nat)
      (db : MilesStore) (cand : MilesCandidate), cand ∈ l →
    candKey uid cand ∈ (svcRun freshId now uid i db l).1.map milesKey := by
  intro l
  induction l with
  | nil => intro freshId i db cand h; simp at h
  | cons cand0 rest ih =>
    intro freshId i db cand h
    simp only [svcRun]
    cases hl : get_miles_data_by_date_hour_source db uid cand0.date_hour
        cand0.source with
    | some r =>
      have hl' : db.find? (milesHit uid cand0.date_hour cand0.source) =
          some r := hl
      simp only [hl]
      rcases List.mem_cons.mp h with rfl | hrest
      · apply svcRun_keys_mono
        rw [replaceFirst_key_preserving uid cand.date_hour cand.source cand
          now r db hl']
        have hk : milesKey r = candKey uid cand :=
          (milesKey_eq_candKey_iff uid cand r).mpr (List.find?_some hl')
        exact hk ▸ List.mem_map_of_mem milesKey (List.mem_of_find?_eq_some hl')
      · exact ih freshId (i + 1) _ cand hrest
    | none =>
      simp only [hl]
      rcases List.mem_cons.mp h with rfl | hrest
      · apply svcRun_keys_mono
        rw [List.map_append]
        apply List.mem_append_right
        simp [milesKey_milesNewRecord]
      · exact ih freshId (i + 1) _ cand hrest

theorem svcRun_all_found (now : Int) (uid : String) :
    ∀ (l : List MilesCandidate) (freshId : Nat → String) (i : Nat)
      (db : MilesStore),
    (∀ cand ∈ l, candKey uid cand ∈ db.map milesKey) →
    (svcRun freshId now uid i db l).2.2.1 = 0 ∧
    (svcRun freshId now uid i db l).2.2.2 = l.length := by
  intro l
  induction l with
  | nil => intro freshId i db h; exact ⟨rfl, rfl⟩
  | cons cand rest ih =>
    intro freshId i db h
    have hsome : (db.find? (milesHit uid cand.date_hour cand.source)).isSome :=
      (find?_isSome_key db uid cand.date_hour cand.source).mpr
        (h cand (List.mem_cons_self _ _))
    simp only [svcRun]
    cases hl : get_miles_data_by_date_hour_source db uid cand.date_hour
        cand.source with
    | none =>
      have hl' : db.find? (milesHit uid cand.date_hour cand.source) = none :=
        hl
      rw [hl'] at hsome
      simp at hsome
    | some r =>
      have hl' : db.find? (milesHit uid cand.date_hour cand.source) =
          some r := hl
      simp only [hl]
      have hkeys : ∀ c ∈ rest, candKey uid c ∈
          (replaceFirst (milesHit uid cand.date_hour cand.source)
            (milesApplyUpdate cand now r) db).map milesKey := by
        intro c hc
        rw [replaceFirst_key_preserving uid cand.date_hour cand.source cand
          now r db hl']
        exact h c (List.mem_cons_of_mem _ hc)
      obtain ⟨g1, g2⟩ := ih freshId (i + 1) _ hkeys
      exact ⟨g1, by rw [List.length_cons, g2]⟩


theorem svcRun_miles_pres (now : Int) (uid : String) (dh : Int)
    (src : String) :
    ∀ (l : List MilesCandidate) (freshId : Nat → String) (i : Nat)
      (db : MilesStore) (r0 : MilesRecord),
    db.find? (milesHit uid dh src) = some r0 →
    (∀ c ∈ l, c.date_hour = dh → c.source = src → c.miles = none) →
    ∃ r1, (svcRun freshId now uid i db l).1.find? (milesHit uid dh src) =
      some r1 ∧ r1.miles = r0.miles := by
  intro l
  induction l with
  | nil => intro freshId i db r0 h0 _; exact ⟨r0, h0, rfl⟩
  | cons cand rest ih =>
    intro freshId i db r0 h0 hnone
    simp only [svcRun]
    cases hl : get_miles_data_by_date_hour_source db uid cand.date_hour
        cand.source with
    | some r =>
      have hl' : db.find? (milesHit uid cand.date_hour cand.source) =
          some r := hl
      simp only [hl]
      by_cases hck : cand.date_hour = dh ∧ cand.source = src
      · obtain ⟨e1, e2⟩ := hck
        subst e1
        subst e2
        have hrr : r = r0 := by
          have := hl'.symm.trans h0
          injection this
        subst hrr
        have hcm : cand.miles = none :=
          hnone cand (List.mem_cons_self _ _) rfl rfl
        have hpred : milesHit uid cand.date_hour cand.source
            (milesApplyUpdate cand now r) = true := by
          rw [milesHit_milesApplyUpdate]
          exact List.find?_some hl'
        have hfr : (replaceFirst (milesHit uid cand.date_hour cand.source)
            (milesApplyUpdate cand now r) db).find?
            (milesHit uid cand.date_hour cand.source) =
            some (milesApplyUpdate cand now r) :=
          find?_replaceFirst_self hl' hpred
        obtain ⟨r1, hr1, hm1⟩ := ih freshId (i + 1) _ _ hfr
          (fun c hc => hnone c (List.mem_cons_of_mem _ hc))
        exact ⟨r1, hr1, hm1.trans (milesApplyUpdate_miles_none now r hcm)⟩
      · have hq : ∀ a, milesHit uid cand.date_hour cand.source a = true →
            milesHit uid dh src a = false :=
          fun a ha => milesHit_disjoint uid hck a ha
        have hx : milesHit uid dh src (milesApplyUpdate cand now r) =
            false := by
          rw [milesHit_milesApplyUpdate]
          exact hq r (List.find?_some hl')
        have h0' : (replaceFirst (milesHit uid cand.date_hour cand.source)
            (milesApplyUpdate cand now r) db).find? (milesHit uid dh src) =
            some r0 := by
          rw [find?_replaceFirst_other hq hx]
          exact h0
        exact ih freshId (i + 1) _ r0 h0'
          (fun c hc => hnone c (List.mem_cons_of_mem _ hc))
    | none =>
      simp only [hl]
      have h0' : (db ++ [milesNewRecord (freshId i) uid cand now]).find?
          (milesHit uid dh src) = some r0 := find?_append_of_some _ h0
      exact ih freshId (i + 1) _ r0 h0'
        (fun c hc => hnone c (List.mem_cons_of_mem _ hc))

theorem svcRun_activity_pres (now : Int) (uid : String) (dh : Int)
    (src : String) :
    ∀ (l : List MilesCandidate) (freshId : Nat → String) (i : Nat)
      (db : MilesStore) (r0 : MilesRecord),
    db.find? (milesHit uid dh src) = some r0 →
    (∀ c ∈ l, c.date_hour = dh → c.source = src → c.activity_type = none) →
    ∃ r1, (svcRun freshId now uid i db l).1.find? (milesHit uid dh src) =
      some r1 ∧ r1.activity_type = r0.activity_type := by
  intro l
  induction l with
  | nil => intro freshId i db r0 h0 _; exact ⟨r0, h0, rfl⟩
  | cons cand rest ih =>
    intro freshId i db r0 h0 hnone
    simp only [svcRun]
    cases hl : get_miles_data_by_date_hour_source db uid cand.date_hour
        cand.source with
    | some r =>
      have hl' : db.find? (milesHit uid cand.date_hour cand.source) =
          some r := hl
      simp only [hl]
      by_cases hck : cand.date_hour = dh ∧ cand.source = src
      · obtain ⟨e1, e2⟩ := hck
        subst e1
        subst e2
        have hrr : r = r0 := by
          have := hl'.symm.trans h0
          injection this
        subst hrr
        have hcm : cand.activity_type = none :=
          hnone cand (List.mem_cons_self _ _) rfl rfl
        have hpred : milesHit uid cand.date_hour cand.source
            (milesApplyUpdate cand now r) = true := by
          rw [milesHit_milesApplyUpdate]
          exact List.find?_some hl'
        have hfr : (replaceFirst (milesHit uid cand.date_hour cand.source)
            (milesApplyUpdate cand now r) db).find?
            (milesHit uid cand.date_hour cand.source) =
            some (milesApplyUpdate cand now r) :=
          find?_replaceFirst_self hl' hpred
        obtain ⟨r1, hr1, hm1⟩ := ih freshId (i + 1) _ _ hfr
          (fun c hc => hnone c (List.mem_cons_of_mem _ hc))
        exact ⟨r1, hr1,
          hm1.trans (milesApplyUpdate_activity_none now r hcm)⟩
      · have hq : ∀ a, milesHit uid cand.date_hour cand.source a = true →
            milesHit uid dh src a = false :=
          fun a ha => milesHit_disjoint uid hck a ha
        have hx : milesHit uid dh src (milesApplyUpdate cand now r) =
            false := by
          rw [milesHit_milesApplyUpdate]
          exact hq r (List.find?_some hl')
        have h0' : (replaceFirst (milesHit uid cand.date_hour cand.source)
            (milesApplyUpdate cand now r) db).find? (milesHit uid dh src) =
            some r0 := by
          rw [find?_replaceFirst_other hq hx]
          exact h0
        exact ih freshId (i + 1) _ r0 h0'
          (fun c hc => hnone c (List.mem_cons_of_mem _ hc))
    | none =>
      simp only [hl]
      have h0' : (db ++ [milesNewRecord (freshId i) uid cand now]).find?
          (milesHit uid dh src) = some r0 := find?_append_of_some _ h0
      exact ih freshId (i + 1) _ r0 h0'
        (fun c hc => hnone c (List.mem_cons_of_mem _ hc))


theorem laterOverwrites_weaken {dh : Int} {src : String}
    {c : MilesCandidate} {l : List MilesCandidate} {x r : MilesRecord}
    (h : laterOverwrites dh src (c :: l) x r)
    (hck : ¬(c.date_hour = dh ∧ c.source = src)) :
    laterOverwrites dh src l x r := by
  obtain ⟨e1, e2, e3, e4, e5, hm, ha⟩ := h
  refine ⟨e1, e2, e3, e4, e5, ?_, ?_⟩
  · intro hne
    obtain ⟨c', hc', hd, hs, hp⟩ := hm hne
    rcases List.mem_cons.mp hc' with rfl | hcl
    · exact absurd ⟨hd, hs⟩ hck
    · exact ⟨c', hcl, hd, hs, hp⟩
  · intro hne
    obtain ⟨c', hc', hd, hs, hp⟩ := ha hne
    rcases List.mem_cons.mp hc' with rfl | hcl
    · exact absurd ⟨hd, hs⟩ hck
    · exact ⟨c', hcl, hd, hs, hp⟩

theorem laterOverwrites_step {dh : Int} {src : String}
    {c : MilesCandidate} {l : List MilesCandidate} {x r : MilesRecord}
    (t : Int) (h : laterOverwrites dh src (c :: l) x r) :
    laterOverwrites dh src l (milesApplyUpdate c t x)
      (milesApplyUpdate c t r) := by
  obtain ⟨e1, e2, e3, e4, e5, hm, ha⟩ := h
  obtain ⟨k1x, k2x, k3x⟩ := milesApplyUpdate_key_fields c t x
  obtain ⟨k1r, k2r, k3r⟩ := milesApplyUpdate_key_fields c t r
  obtain ⟨c1x, c2x⟩ := milesApplyUpdate_core c t x
  obtain ⟨c1r, c2r⟩ := milesApplyUpdate_core c t r
  refine ⟨c1x.trans (e1.trans c1r.symm), k1x.trans (e2.trans k1r.symm),
    k2x.trans (e3.trans k2r.symm), k3x.trans (e4.trans k3r.symm),
    c2x.trans (e5.trans c2r.symm), ?_, ?_⟩
  · intro hne
    cases hcm : c.miles with
    | some v =>
      rw [milesApplyUpdate_miles_some t x hcm,
        milesApplyUpdate_miles_some t r hcm] at hne
      exact absurd rfl hne
    | none =>
      rw [milesApplyUpdate_miles_none t x hcm,
        milesApplyUpdate_miles_none t r hcm] at hne
      obtain ⟨c', hc', hd, hs, hp⟩ := hm hne
      rcases List.mem_cons.mp hc' with rfl | hcl
      · exact absurd hcm hp
      · exact ⟨c', hcl, hd, hs, hp⟩
  · intro hne
    cases hcm : c.activity_type with
    | some v =>
      rw [milesApplyUpdate_activity_some t x hcm,
        milesApplyUpdate_activity_some t r hcm] at hne
      exact absurd rfl hne
    | none =>
      rw [milesApplyUpdate_activity_none t x hcm,
        milesApplyUpdate_activity_none t r hcm] at hne
      obtain ⟨c', hc', hd, hs, hp⟩ := ha hne
      rcases List.mem_cons.mp hc' with rfl | hcl
      · exact absurd hcm hp
      · exact ⟨c', hcl, hd, hs, hp⟩

theorem svcRun_promise_replace (now : Int) (uid : String) (dh : Int)
    (src : String) :
    ∀ (l : List MilesCandidate) (freshId : Nat → String) (i : Nat)
      (db : MilesStore) (x r : MilesRecord),
    db.find? (milesHit uid dh src) = some r →
    laterOverwrites dh src l x r →
    (svcRun freshId now uid i
      (replaceFirst (milesHit uid dh src) x db) l).1.map stripUpd =
      (svcRun freshId now uid i db l).1.map stripUpd := by
  intro l
  induction l with
  | nil =>
    intro freshId i db x r hf hrel
    obtain ⟨e1, e2, e3, e4, e5, hm, ha⟩ := hrel
    have hm' : x.miles = r.miles := by
      by_contra hne
      obtain ⟨cc, hcc, -⟩ := hm hne
      exact absurd hcc (List.not_mem_nil cc)
    have ha' : x.activity_type = r.activity_type := by
      by_contra hne
      obtain ⟨cc, hcc, -⟩ := ha hne
      exact absurd hcc (List.not_mem_nil cc)
    show (replaceFirst (milesHit uid dh src) x db).map stripUpd =
      db.map stripUpd
    exact map_replaceFirst_strip_found hf
      (stripUpd_ext e1 e2 e3 e4 e5 hm' ha')
  | cons c l' ih =>
    intro freshId i db x r hf hrel
    have hr_hit : milesHit uid dh src r = true := List.find?_some hf
    have hx_hit : milesHit uid dh src x = true := by
      obtain ⟨hru, hrd, hrs⟩ := (milesHit_true_iff uid dh src r).mp hr_hit
      exact (milesHit_true_iff uid dh src x).mpr
        ⟨hrel.2.1.trans hru, hrel.2.2.1.trans hrd, hrel.2.2.2.1.trans hrs⟩
    by_cases hck : c.date_hour = dh ∧ c.source = src
    · obtain ⟨ed, es⟩ := hck
      subst ed
      subst es
      simp only [svcRun]
      have hlx : get_miles_data_by_date_hour_source
          (replaceFirst (milesHit uid c.date_hour c.source) x db) uid
          c.date_hour c.source = some x :=
        find?_replaceFirst_self hf hx_hit
      have hfr : get_miles_data_by_date_hour_source db uid c.date_hour
          c.source = some r := hf
      simp only [hlx, hfr]
      have hkr : milesHit uid c.date_hour c.source
          (milesApplyUpdate c now r) = true := by
        rw [milesHit_milesApplyUpdate]
        exact hr_hit
      have hstep := ih freshId (i + 1)
        (replaceFirst (milesHit uid c.date_hour c.source)
          (milesApplyUpdate c now r) db)
        (milesApplyUpdate c now x) (milesApplyUpdate c now r)
        (find?_replaceFirst_self hf hkr) (laterOverwrites_step now hrel)
      rw [replaceFirst_replaceFirst (milesApplyUpdate c now x) hkr db]
        at hstep
      rw [replaceFirst_replaceFirst (milesApplyUpdate c now x) hx_hit db]
      exact hstep
    · have hq : ∀ a, milesHit uid dh src a = true →
          milesHit uid c.date_hour c.source a = false :=
        fun a ha => milesHit_disjoint uid
          (fun hcon => hck ⟨hcon.1.symm, hcon.2.symm⟩) a ha
      have hq' : ∀ a, milesHit uid c.date_hour c.source a = true →
          milesHit uid dh src a = false :=
        fun a ha => milesHit_disjoint uid hck a ha
      have hcx : milesHit uid c.date_hour c.source x = false := hq x hx_hit
      have hlk : (replaceFirst (milesHit uid dh src) x db).find?
          (milesHit uid c.date_hour c.source) =
          db.find? (milesHit uid c.date_hour c.source) :=
        find?_replaceFirst_other hq hcx db
      simp only [svcRun]
      cases hl : get_miles_data_by_date_hour_source db uid c.date_hour
          c.source with
      | some s =>
        have hl' : db.find? (milesHit uid c.date_hour c.source) = some s :=
          hl
        have hlkl : get_miles_data_by_date_hour_source
            (replaceFirst (milesHit uid dh src) x db) uid c.date_hour
            c.source = some s := by
          show (replaceFirst (milesHit uid dh src) x db).find?
            (milesHit uid c.date_hour c.source) = some s
          rw [hlk]
          exact hl'
        simp only [hl, hlkl]
        have hpy : milesHit uid dh src (milesApplyUpdate c now s) =
            false := by
          rw [milesHit_milesApplyUpdate]
          exact hq' s (List.find?_some hl')
        rw [replaceFirst_comm_disjoint hq hcx hpy db]
        exact ih freshId (i + 1) _ x r
          (by rw [find?_replaceFirst_other hq' hpy]; exact hf)
          (laterOverwrites_weaken hrel hck)
      | none =>
        have hl' : db.find? (milesHit uid c.date_hour c.source) = none := hl
        have hlkl : get_miles_data_by_date_hour_source
            (replaceFirst (milesHit uid dh src) x db) uid c.date_hour
            c.source = none := by
          show (replaceFirst (milesHit uid dh src) x db).find?
            (milesHit uid c.date_hour c.source) = none
          rw [hlk]
          exact hl'
        simp only [hl, hlkl]
        rw [← replaceFirst_append_left
          [milesNewRecord (freshId i) uid c now] hf]
        exact ih freshId (i + 1) _ x r (find?_append_of_some _ hf)
          (laterOverwrites_weaken hrel hck)


theorem svcRun_store_replay (t1 t2 : Int) (uid : String) :
    ∀ (recs : List MilesCandidate) (f1 f2 : Nat → String) (i1 i2 : Nat)
      (db : MilesStore),
    (svcRun f2 t2 uid i2 (svcRun f1 t1 uid i1 db recs).1 recs).1.map
      stripUpd = (svcRun f1 t1 uid i1 db recs).1.map stripUpd := by
  intro recs
  induction recs with
  | nil => intro f1 f2 i1 i2 db; rfl
  | cons cand rest ih =>
    intro f1 f2 i1 i2 db
    cases hl : get_miles_data_by_date_hour_source db uid cand.date_hour
        cand.source with
    | some r =>
      have hl' : db.find? (milesHit uid cand.date_hour cand.source) =
          some r := hl
      have hpred : milesHit uid cand.date_hour cand.source
          (milesApplyUpdate cand t1 r) = true := by
        rw [milesHit_milesApplyUpdate]
        exact List.find?_some hl'
      have hk0 : candKey uid cand ∈ (replaceFirst
          (milesHit uid cand.date_hour cand.source)
          (milesApplyUpdate cand t1 r) db).map milesKey := by
        rw [replaceFirst_key_preserving uid cand.date_hour cand.source cand
          t1 r db hl']
        have hk : milesKey r = candKey uid cand :=
          (milesKey_eq_candKey_iff uid cand r).mpr (List.find?_some hl')
        exact hk ▸ List.mem_map_of_mem milesKey
          (List.mem_of_find?_eq_some hl')
      have hk1 : candKey uid cand ∈ (svcRun f1 t1 uid (i1 + 1)
          (replaceFirst (milesHit uid cand.date_hour cand.source)
            (milesApplyUpdate cand t1 r) db) rest).1.map milesKey :=
        svcRun_keys_mono t1 uid rest f1 (i1 + 1) _ hk0
      have hq1 : ((svcRun f1 t1 uid (i1 + 1)
          (replaceFirst (milesHit uid cand.date_hour cand.source)
            (milesApplyUpdate cand t1 r) db) rest).1.find?
          (milesHit uid cand.date_hour cand.source)).isSome :=
        (find?_isSome_key _ uid cand.date_hour cand.source).mpr hk1
      obtain ⟨q, hq⟩ := Option.isSome_iff_exists.mp hq1
      have hqf : (svcRun f1 t1 uid (i1 + 1)
          (replaceFirst (milesHit uid cand.date_hour cand.source)
            (milesApplyUpdate cand t1 r) db) rest).1.find?
          (milesHit uid cand.date_hour cand.source) = some q := hq
      have hq' : get_miles_data_by_date_hour_source (svcRun f1 t1 uid
          (i1 + 1) (replaceFirst (milesHit uid cand.date_hour cand.source)
            (milesApplyUpdate cand t1 r) db) rest).1 uid cand.date_hour
          cand.source = some q := hq
      have hrel : laterOverwrites cand.date_hour cand.source rest
          (milesApplyUpdate cand t2 q) q := by
        obtain ⟨k1, k2, k3⟩ := milesApplyUpdate_key_fields cand t2 q
        obtain ⟨c1, c2⟩ := milesApplyUpdate_core cand t2 q
        refine ⟨c1, k1, k2, k3, c2, ?_, ?_⟩
        · intro hne
          by_cases hex : ∃ c' ∈ rest, c'.date_hour = cand.date_hour ∧
              c'.source = cand.source ∧ c'.miles ≠ none
          · exact hex
          · exfalso
            cases hcm : cand.miles with
            | none => exact hne (milesApplyUpdate_miles_none t2 q hcm)
            | some v =>
              have hnone : ∀ c' ∈ rest, c'.date_hour = cand.date_hour →
                  c'.source = cand.source → c'.miles = none := by
                intro c' hc' hd hs
                by_contra hcn
                exact hex ⟨c', hc', hd, hs, hcn⟩
              obtain ⟨r1, hr1, hm1⟩ := svcRun_miles_pres t1 uid
                cand.date_hour cand.source rest f1 (i1 + 1) _ _
                (find?_replaceFirst_self hl' hpred) hnone
              have hqr : q = r1 := by
                have h := hqf.symm.trans hr1
                injection h
              have hqm : q.miles = some v := by
                rw [hqr, hm1, milesApplyUpdate_miles_some t1 r hcm]
              exact hne (by rw [milesApplyUpdate_miles_some t2 q hcm, hqm])
        · intro hne
          by_cases hex : ∃ c' ∈ rest, c'.date_hour = cand.date_hour ∧
              c'.source = cand.source ∧ c'.activity_type ≠ none
          · exact hex
          · exfalso
            cases hcm : cand.activity_type with
            | none => exact hne (milesApplyUpdate_activity_none t2 q hcm)
            | some v =>
              have hnone : ∀ c' ∈ rest, c'.date_hour = cand.date_hour →
                  c'.source = cand.source → c'.activity_type = none := by
                intro c' hc' hd hs
                by_contra hcn
                exact hex ⟨c', hc', hd, hs, hcn⟩
              obtain ⟨r1, hr1, hm1⟩ := svcRun_activity_pres t1 uid
                cand.date_hour cand.source rest f1 (i1 + 1) _ _
                (find?_replaceFirst_self hl' hpred) hnone
              have hqr : q = r1 := by
                have h := hqf.symm.trans hr1
                injection h
              have hqm : q.activity_type = some v := by
                rw [hqr, hm1, milesApplyUpdate_activity_some t1 r hcm]
              exact hne
                (by rw [milesApplyUpdate_activity_some t2 q hcm, hqm])
      simp only [svcRun, hl, hq']
      have hbridge := svcRun_promise_replace t2 uid cand.date_hour
        cand.source rest f2 (i2 + 1) _ (milesApplyUpdate cand t2 q) q hqf
        hrel
      exact hbridge.trans (ih f1 f2 (i1 + 1) (i2 + 1) _)
    | none =>
      have hl' : db.find? (milesHit uid cand.date_hour cand.source) =
          none := hl
      have hpred : milesHit uid cand.date_hour cand.source
          (milesNewRecord (f1 i1) uid cand t1) = true :=
        milesHit_milesNewRecord (f1 i1) uid cand t1
      have hst : (db ++ [milesNewRecord (f1 i1) uid cand t1]).find?
          (milesHit uid cand.date_hour cand.source) =
          some (milesNewRecord (f1 i1) uid cand t1) := by
        rw [find?_append_of_none hl']
        rw [List.find?_cons_of_pos _ hpred]
      have hk0 : candKey uid cand ∈
          (db ++ [milesNewRecord (f1 i1) uid cand t1]).map milesKey := by
        rw [List.map_append]
        apply List.mem_append_right
        simp [milesKey_milesNewRecord]
      have hk1 : candKey uid cand ∈ (svcRun f1 t1 uid (i1 + 1)
          (db ++ [milesNewRecord (f1 i1) uid cand t1]) rest).1.map
          milesKey :=
        svcRun_keys_mono t1 uid rest f1 (i1 + 1) _ hk0
      have hq1 : ((svcRun f1 t1 uid (i1 + 1)
          (db ++ [milesNewRecord (f1 i1) uid cand t1]) rest).1.find?
          (milesHit uid cand.date_hour cand.source)).isSome :=
        (find?_isSome_key _ uid cand.date_hour cand.source).mpr hk1
      obtain ⟨q, hq⟩ := Option.isSome_iff_exists.mp hq1
      have hqf : (svcRun f1 t1 uid (i1 + 1)
          (db ++ [milesNewRecord (f1 i1) uid cand t1]) rest).1.find?
          (milesHit uid cand.date_hour cand.source) = some q := hq
      have hq' : get_miles_data_by_date_hour_source (svcRun f1 t1 uid
          (i1 + 1) (db ++ [milesNewRecord (f1 i1) uid cand t1]) rest).1 uid
          cand.date_hour cand.source = some q := hq
      have hrel : laterOverwrites cand.date_hour cand.source rest
          (milesApplyUpdate cand t2 q) q := by
        obtain ⟨k1, k2, k3⟩ := milesApplyUpdate_key_fields cand t2 q
        obtain ⟨c1, c2⟩ := milesApplyUpdate_core cand t2 q
        refine ⟨c1, k1, k2, k3, c2, ?_, ?_⟩
        · intro hne
          by_cases hex : ∃ c' ∈ rest, c'.date_hour = cand.date_hour ∧
              c'.source = cand.source ∧ c'.miles ≠ none
          · exact hex
          · exfalso
            cases hcm : cand.miles with
            | none => exact hne (milesApplyUpdate_miles_none t2 q hcm)
            | some v =>
              have hnone : ∀ c' ∈ rest, c'.date_hour = cand.date_hour →
                  c'.source = cand.source → c'.miles = none := by
                intro c' hc' hd hs
                by_contra hcn
                exact hex ⟨c', hc', hd, hs, hcn⟩
              obtain ⟨r1, hr1, hm1⟩ := svcRun_miles_pres t1 uid
                cand.date_hour cand.source rest f1 (i1 + 1) _ _ hst hnone
              have hqr : q = r1 := by
                have h := hqf.symm.trans hr1
                injection h
              have hnv : (milesNewRecord (f1 i1) uid cand t1).miles =
                  some v := hcm
              have hqm : q.miles = some v := by
                rw [hqr, hm1]
                exact hnv
              exact hne (by rw [milesApplyUpdate_miles_some t2 q hcm, hqm])
        · intro hne
          by_cases hex : ∃ c' ∈ rest, c'.date_hour = cand.date_hour ∧
              c'.source = cand.source ∧ c'.activity_type ≠ none
          · exact hex
          · exfalso
            cases hcm : cand.activity_type with
            | none => exact hne (milesApplyUpdate_activity_none t2 q hcm)
            | some v =>
              have hnone : ∀ c' ∈ rest, c'.date_hour = cand.date_hour →
                  c'.source = cand.source → c'.activity_type = none := by
                intro c' hc' hd hs
                by_contra hcn
                exact hex ⟨c', hc', hd, hs, hcn⟩
              obtain ⟨r1, hr1, hm1⟩ := svcRun_activity_pres t1 uid
                cand.date_hour cand.source rest f1 (i1 + 1) _ _ hst hnone
              have hqr : q = r1 := by
                have h := hqf.symm.trans hr1
                injection h
              have hnv : (milesNewRecord (f1 i1) uid cand
                  t1).activity_type = some v := hcm
              have hqm : q.activity_type = some v := by
                rw [hqr, hm1]
                exact hnv
              exact hne
                (by rw [milesApplyUpdate_activity_some t2 q hcm, hqm])
      simp only [svcRun, hl, hq']
      have hbridge := svcRun_promise_replace t2 uid cand.date_hour
        cand.source rest f2 (i2 + 1) _ (milesApplyUpdate cand t2 q) q hqf
        hrel
      exact hbridge.trans (ih f1 f2 (i1 + 1) (i2 + 1) _)


theorem sessionView_strip_congr (uid : String) :
    ∀ (recs : List MilesCandidate) (ps1 ps2 : List MilesRecord)
      (db1 db2 : MilesStore),
    db2.map stripUpd = db1.map stripUpd →
    List.Forall₂ (fun (p : MilesRecord) (cand : MilesCandidate) =>
      p.user_id = uid ∧ p.date_hour = cand.date_hour ∧
      p.source = cand.source) ps1 recs →
    List.Forall₂ (fun (p : MilesRecord) (cand : MilesCandidate) =>
      p.user_id = uid ∧ p.date_hour = cand.date_hour ∧
      p.source = cand.source) ps2 recs →
    (∀ cand ∈ recs,
      (db1.find? (milesHit uid cand.date_hour cand.source)).isSome) →
    (sessionView db2 ps2).map stripUpd =
      (sessionView db1 ps1).map stripUpd := by
  intro recs
  induction recs with
  | nil =>
    intro ps1 ps2 db1 db2 h h1 h2 hk
    cases h1
    cases h2
    rfl
  | cons cand rest ih =>
    intro ps1 ps2 db1 db2 h h1 h2 hk
    rw [List.forall₂_cons_right_iff] at h1 h2
    obtain ⟨p1, ps1', hp1, h1', rfl⟩ := h1
    obtain ⟨p2, ps2', hp2, h2', rfl⟩ := h2
    obtain ⟨r1, hr1⟩ := Option.isSome_iff_exists.mp
      (hk cand (List.mem_cons_self _ _))
    have hfind := find?_strip_congr uid cand.date_hour cand.source h
    rw [hr1] at hfind
    simp only [Option.map_some'] at hfind
    obtain ⟨r2, hr2, hsr⟩ := Option.map_eq_some'.mp hfind
    obtain ⟨e1, e2, e3⟩ := hp2
    obtain ⟨f1, f2, f3⟩ := hp1
    have htail := ih ps1' ps2' db1 db2 h h1' h2'
      (fun c hc => hk c (List.mem_cons_of_mem _ hc))
    have hh : stripUpd
        ((db2.find? (milesHit p2.user_id p2.date_hour p2.source)).getD p2) =
        stripUpd
        ((db1.find? (milesHit p1.user_id p1.date_hour p1.source)).getD
          p1) := by
      rw [e1, e2, e3, f1, f2, f3, hr2, hr1]
      simp only [Option.getD_some]
      exact hsr
    show stripUpd
        ((db2.find? (milesHit p2.user_id p2.date_hour p2.source)).getD p2)
        :: (sessionView db2 ps2').map stripUpd =
      stripUpd
        ((db1.find? (milesHit p1.user_id p1.date_hour p1.source)).getD p1)
        :: (sessionView db1 ps1').map stripUpd
    rw [hh, htail]

/-- Counterexample to C5: the second application of a batch is not
literally idempotent. Even for a single-candidate batch, the second
application finds the row the first one created and the merge
unconditionally refreshes `updated_at` (`metrics_service.py` line 58), so
the final store — and with it the processed record the caller observes —
differs from the first application's. The last conjunct shows the
difference is confined to `updated_at`: stripping that one column restores
equality. -/
theorem reingest_not_literally_idempotent_cex :
    create_or_update_multiple_miles_records noErr sampleFreshId 5 ("u1")
      [candA] [] =
      .ok ([milesNewRecord ("r0") ("u1") candA 5],
           [milesNewRecord ("r0") ("u1") candA 5], 1, 0) ∧
    create_or_update_multiple_miles_records noErr sampleFreshId 6 ("u1")
      [candA] [milesNewRecord ("r0") ("u1") candA 5] =
      .ok ([milesApplyUpdate candA 6 (milesNewRecord ("r0") ("u1") candA 5)],
           [milesApplyUpdate candA 6 (milesNewRecord ("r0") ("u1") candA 5)],
           0, 1) ∧
    [milesApplyUpdate candA 6 (milesNewRecord ("r0") ("u1") candA 5)] ≠
      [milesNewRecord ("r0") ("u1") candA 5] ∧
    (milesApplyUpdate candA 6
      (milesNewRecord ("r0") ("u1") candA 5)).updated_at ≠
      (milesNewRecord ("r0") ("u1") candA 5).updated_at ∧
    stripUpd (milesApplyUpdate candA 6
      (milesNewRecord ("r0") ("u1") candA 5)) =
      stripUpd (milesNewRecord ("r0") ("u1") candA 5) :=
  ⟨rfl, rfl, by decide, by decide, by decide⟩

/-- C5 as amended: applying the same batch twice is idempotent up to the
`updated_at` refresh the merge always performs — with no further proviso,
repeated keys included. The second application reports `created_count = 0`
and `updated_count = n`, its final store equals the first application's
once `updated_at` is disregarded, and the processed records as the caller
observes them (live session objects, read against the final store:
`sessionView`) likewise agree once `updated_at` is disregarded. -/
theorem reingest_idempotent_up_to_updated_at
    (freshId1 freshId2 : Nat → String) (t1 t2 : Int) (uid : String)
    (recs : List MilesCandidate) (db db1 db2 : MilesStore)
    (ps1 ps2 : List MilesRecord) (c1 u1 c2 u2 : Nat)
    (h1 : create_or_update_multiple_miles_records noErr freshId1 t1 uid recs
      db = .ok (db1, ps1, c1, u1))
    (h2 : create_or_update_multiple_miles_records noErr freshId2 t2 uid recs
      db1 = .ok (db2, ps2, c2, u2)) :
    c2 = 0 ∧ u2 = recs.length ∧
    db2.map stripUpd = db1.map stripUpd ∧
    (sessionView db2 ps2).map stripUpd =
      (sessionView db1 ps1).map stripUpd := by
  rw [create_eq_svcRun] at h1 h2
  injection h1 with h1
  injection h2 with h2
  have hkeys : ∀ cand ∈ recs, candKey uid cand ∈ db1.map milesKey := by
    intro cand hc
    have hk := svcRun_ensures_keys t1 uid recs freshId1 0 db cand hc
    rw [h1] at hk
    exact hk
  have hfound := svcRun_all_found t2 uid recs freshId2 0 db1 hkeys
  rw [h2] at hfound
  have hstore := svcRun_store_replay t1 t2 uid recs freshId1 freshId2 0 0 db
  rw [h1] at hstore
  dsimp only at hstore
  rw [h2] at hstore
  dsimp only at hstore
  obtain ⟨-, -, hps1, -⟩ := svcRun_spec t1 uid recs freshId1 db
  obtain ⟨-, -, hps2, -⟩ := svcRun_spec t2 uid recs freshId2 db1
  rw [h1] at hps1
  rw [h2] at hps2
  have hsome : ∀ cand ∈ recs,
      (db1.find? (milesHit uid cand.date_hour cand.source)).isSome :=
    fun cand hc =>
      (find?_isSome_key db1 uid cand.date_hour cand.source).mpr
        (hkeys cand hc)
  exact ⟨hfound.1, hfound.2, hstore,
    sessionView_strip_congr uid recs ps1 ps2 db1 db2 hstore hps1 hps2
      hsome⟩

/-- Witness for the amended C5 on the batch A-then-B, whose two candidates
share one natural key: re-application creates nothing, updates twice, and
both the store and the observed processed records agree with the first
application's up to `updated_at`. -/
theorem reingest_idempotent_up_to_updated_at_witness :
    create_or_update_multiple_miles_records noErr sampleFreshId 5 ("u1")
      [candA, candB] [] =
      .ok ([milesApplyUpdate candB 5 (milesNewRecord ("r0") ("u1") candA 5)],
           [milesNewRecord ("r0") ("u1") candA 5,
            milesApplyUpdate candB 5 (milesNewRecord ("r0") ("u1") candA 5)],
           1, 1) ∧
    create_or_update_multiple_miles_records noErr sampleFreshId 6 ("u1")
      [candA, candB]
      [milesApplyUpdate candB 5 (milesNewRecord ("r0") ("u1") candA 5)] =
      .ok ([milesApplyUpdate candB 6 (milesApplyUpdate candA 6
              (milesApplyUpdate candB 5
                (milesNewRecord ("r0") ("u1") candA 5)))],
           [milesApplyUpdate candA 6 (milesApplyUpdate candB 5
              (milesNewRecord ("r0") ("u1") candA 5)),
            milesApplyUpdate candB 6 (milesApplyUpdate candA 6
              (milesApplyUpdate candB 5
                (milesNewRecord ("r0") ("u1") candA 5)))],
           0, 2) ∧
    (0 = 0 ∧ 2 = [candA, candB].length ∧
      [milesApplyUpdate candB 6 (milesApplyUpdate candA 6
        (milesApplyUpdate candB 5
          (milesNewRecord ("r0") ("u1") candA 5)))].map stripUpd =
        [milesApplyUpdate candB 5
          (milesNewRecord ("r0") ("u1") candA 5)].map stripUpd ∧
      (sessionView
        [milesApplyUpdate candB 6 (milesApplyUpdate candA 6
          (milesApplyUpdate candB 5
            (milesNewRecord ("r0") ("u1") candA 5)))]
        [milesApplyUpdate candA 6 (milesApplyUpdate candB 5
           (milesNewRecord ("r0") ("u1") candA 5)),
         milesApplyUpdate candB 6 (milesApplyUpdate candA 6
           (milesApplyUpdate candB 5
             (milesNewRecord ("r0") ("u1") candA 5)))]).map stripUpd =
      (sessionView
        [milesApplyUpdate candB 5 (milesNewRecord ("r0") ("u1") candA 5)]
        [milesNewRecord ("r0") ("u1") candA 5,
         milesApplyUpdate candB 5
           (milesNewRecord ("r0") ("u1") candA 5)]).map stripUpd) :=
  ⟨rfl, rfl,
   reingest_idempotent_up_to_updated_at sampleFreshId sampleFreshId 5 6
     ("u1") [candA, candB] []
     [milesApplyUpdate candB 5 (milesNewRecord ("r0") ("u1") candA 5)]
     [milesApplyUpdate candB 6 (milesApplyUpdate candA 6
       (milesApplyUpdate candB 5 (milesNewRecord ("r0") ("u1") candA 5)))]
     [milesNewRecord ("r0") ("u1") candA 5,
      milesApplyUpdate candB 5 (milesNewRecord ("r0") ("u1") candA 5)]
     [milesApplyUpdate candA 6 (milesApplyUpdate candB 5
        (milesNewRecord ("r0") ("u1") candA 5)),
      milesApplyUpdate candB 6 (milesApplyUpdate candA 6
        (milesApplyUpdate candB 5 (milesNewRecord ("r0") ("u1") candA 5)))]
     1 1 0 2 rfl rfl⟩

end Relay